import Mathlib

/-!
Shallow embedding of the gamification core of the Jupityr repository:
`src/jupityr/gamification/models/player.py` and
`src/jupityr/gamification/engine/game_engine.py`.

Modelling conventions:
* Python `int` is `Int`; the wall clock (`datetime.now()`) is an abstract
  `Nat` tick passed explicitly to every operation that reads it.
* Python objects are aliased by reference.  `Challenge` objects are the
  only objects whose aliasing is observable (the engine catalog and each
  player hold references to the *same* `Challenge` object), so challenge
  objects live in an explicit heap (`List Challenge`) and both the catalog
  and the players store heap indices.
* Python dicts preserve insertion order; they are modelled as association
  lists (`alookup` / `aupdate`), where assignment to an existing key keeps
  its position and a fresh key is appended.
* Event listeners are arbitrary callables; operations instead return the
  list of trigger invocations (`Event`) in the order `_trigger_event`
  fires them, which is what the listener-facing claims are about.
-/

namespace Jupityr

/-- Skill enumeration from `player.py` (`class Skill(Enum)`). -/
inductive Skill where
  | nlp
  | ml
  | data_analysis
  | programming
deriving DecidableEq, Repr

/-- The player's `_skill_levels` dict: one integer per member of the fixed
`Skill` enumeration (initialised to 0 for every skill in `__init__`). -/
structure SkillLevels where
  nlp : Int
  ml : Int
  data_analysis : Int
  programming : Int
deriving DecidableEq, Repr

def SkillLevels.get (s : SkillLevels) : Skill → Int
  | .nlp => s.nlp
  | .ml => s.ml
  | .data_analysis => s.data_analysis
  | .programming => s.programming

/-- `self._skill_levels[skill] += 1` for one skill. -/
def SkillLevels.bump (s : SkillLevels) : Skill → SkillLevels
  | .nlp => { s with nlp := s.nlp + 1 }
  | .ml => { s with ml := s.ml + 1 }
  | .data_analysis => { s with data_analysis := s.data_analysis + 1 }
  | .programming => { s with programming := s.programming + 1 }

def initialSkillLevels : SkillLevels := ⟨0, 0, 0, 0⟩

/-- The `Achievement` dataclass (`player.py`).  `earned_at` is stamped when
the Python object is constructed; `metadata` is an opaque string map. -/
structure Achievement where
  id : String
  name : String
  description : String
  category : String
  points : Int
  earned_at : Nat := 0
  metadata : List (String × String) := []
deriving DecidableEq, Repr

/-- The `Challenge` dataclass (`player.py`): a mutable object; every holder
(engine catalog, players) aliases the same object, so these live in a heap. -/
structure Challenge where
  id : String
  name : String
  description : String
  difficulty : Int
  skills : List Skill
  points : Int
  completed : Bool := false
  completed_at : Option Nat := none
deriving DecidableEq, Repr

/-- Association list lookup, modelling Python `d.get(k)` / `k in d`. -/
def alookup {α : Type} (l : List (String × α)) (k : String) : Option α :=
  match l with
  | [] => none
  | kv :: rest => if kv.1 = k then some kv.2 else alookup rest k

/-- Association list store, modelling Python `d[k] = v`: an existing key
keeps its position, a fresh key is appended (insertion order). -/
def aupdate {α : Type} (l : List (String × α)) (k : String) (v : α) :
    List (String × α) :=
  match l with
  | [] => [(k, v)]
  | kv :: rest => if kv.1 = k then (k, v) :: rest else kv :: aupdate rest k v

/-- Dereference a challenge object.  Reachable states only ever hold valid
indices; the default is an inert completed zero-point object. -/
def heapGet (heap : List Challenge) (oid : Nat) : Challenge :=
  (heap.get? oid).getD
    { id := "", name := "", description := "", difficulty := 0, skills := [],
      points := 0, completed := true, completed_at := none }

/-- Mutate a challenge object in place. -/
def heapSet (heap : List Challenge) (oid : Nat) (c : Challenge) : List Challenge :=
  heap.set oid c

/-- The `Player` class state (`player.py`).  `challenges` maps a challenge
id to the heap index of the (shared) `Challenge` object. -/
structure Player where
  player_id : String
  username : String
  level : Int
  experience : Int
  total_points : Int
  achievements : List Achievement
  challenges : List (String × Nat)
  skill_levels : SkillLevels
  created_at : Nat
  last_active : Nat
deriving DecidableEq, Repr

/-- `Player.__init__`. -/
def Player.init (player_id username : String) (now : Nat) : Player :=
  { player_id := player_id, username := username, level := 1, experience := 0,
    total_points := 0, achievements := [], challenges := [],
    skill_levels := initialSkillLevels, created_at := now, last_active := now }

/-- `Player.add_experience`: add `amount`, touch `last_active`, then apply at
most one level-up against the threshold `100 * level`. -/
def Player.add_experience (p : Player) (amount : Int) (now : Nat) :
    Player × Bool :=
  let exp := p.experience + amount
  let required_exp := 100 * p.level
  if required_exp ≤ exp then
    ({ p with experience := exp - required_exp, level := p.level + 1,
              last_active := now }, true)
  else
    ({ p with experience := exp, last_active := now }, false)

/-- `achievement.id in {a.id for a in self._achievements}`. -/
def Player.hasAch (p : Player) (aid : String) : Bool :=
  p.achievements.any (fun a => a.id == aid)

/-- `Player.earn_achievement`: no-op when the id is already held, otherwise
append, add the points, and funnel them through `add_experience` (whose
boolean result the source discards). -/
def Player.earn_achievement (p : Player) (a : Achievement) (now : Nat) : Player :=
  if p.hasAch a.id then p
  else
    let p1 := { p with achievements := p.achievements ++ [a],
                       total_points := p.total_points + a.points }
    (p1.add_experience a.points now).1

/-- `Player.start_challenge`: register the (aliased) challenge object under
its id unless the id is already tracked. -/
def Player.start_challenge (p : Player) (heap : List Challenge) (oid : Nat) :
    Player :=
  let cid := (heapGet heap oid).id
  if (alookup p.challenges cid).isSome then p
  else { p with challenges := p.challenges ++ [(cid, oid)] }

/-- `Player.complete_challenge`: returns the updated player, the updated
heap (the shared challenge object is mutated in place), and the boolean the
source returns. -/
def Player.complete_challenge (p : Player) (heap : List Challenge)
    (cid : String) (now : Nat) : Player × List Challenge × Bool :=
  match alookup p.challenges cid with
  | none => (p, heap, false)
  | some oid =>
    let c := heapGet heap oid
    if c.completed then (p, heap, false)
    else
      let heap1 := heapSet heap oid
        { c with completed := true, completed_at := some now }
      let p1 := { p with total_points := p.total_points + c.points }
      let p2 := (p1.add_experience c.points now).1
      let p3 := { p2 with
        skill_levels := c.skills.foldl SkillLevels.bump p2.skill_levels }
      (p3, heap1, true)

/-- `Player.get_skill_level`. -/
def Player.get_skill_level (p : Player) (s : Skill) : Int :=
  p.skill_levels.get s

/-- Dereferenced view of `self._challenges.values()`. -/
def Player.challenge_objs (p : Player) (heap : List Challenge) : List Challenge :=
  p.challenges.map (fun kv => heapGet heap kv.2)

/-- Record returned by `Player.get_progress_summary`. -/
structure ProgressSummary where
  username : String
  level : Int
  experience : Int
  total_points : Int
  achievements_count : Nat
  completed_challenges : Nat
  active_challenges : Nat
  skills : SkillLevels
  days_active : Nat
deriving DecidableEq, Repr

/-- `Player.get_progress_summary`. -/
def Player.get_progress_summary (p : Player) (heap : List Challenge)
    (now : Nat) : ProgressSummary :=
  { username := p.username, level := p.level, experience := p.experience,
    total_points := p.total_points,
    achievements_count := p.achievements.length,
    completed_challenges :=
      ((p.challenge_objs heap).filter (fun c => c.completed)).length,
    active_challenges :=
      ((p.challenge_objs heap).filter (fun c => !c.completed)).length,
    skills := p.skill_levels,
    days_active := now - p.created_at }

/-- `AchievementRule` (`game_engine.py`): an achievement paired with a
predicate over the player's state. -/
structure AchievementRule where
  achievement : Achievement
  condition : Player → Bool
  description : String := ""

/-- `AchievementRule.check`. -/
def AchievementRule.check (r : AchievementRule) (p : Player) : Bool :=
  r.condition p

/-- `GameEngine` state: the challenge-object heap plus the three registries
(`_players`, `_achievement_rules`, `_challenge_catalog`). -/
structure GameEngine where
  heap : List Challenge
  players : List (String × Player)
  achievement_rules : List AchievementRule
  challenge_catalog : List (String × Nat)

/-- `GameEngine.__init__`. -/
def engineInit : GameEngine :=
  { heap := [], players := [], achievement_rules := [], challenge_catalog := [] }

/-- One `_trigger_event` invocation. -/
inductive Event where
  | level_up (player_id : String)
  | achievement_earned (player_id : String) (a : Achievement)
  | challenge_completed (player_id : String) (challenge_id : String)
deriving DecidableEq, Repr

/-- `GameEngine.register_player`: raises `ValueError` on a duplicate id,
otherwise stores and returns a fresh player. -/
def GameEngine.register_player (e : GameEngine) (pid uname : String)
    (now : Nat) : Except String (GameEngine × Player) :=
  if (alookup e.players pid).isSome then
    Except.error ("Player " ++ pid ++ " already exists")
  else
    let p := Player.init pid uname now
    Except.ok ({ e with players := e.players ++ [(pid, p)] }, p)

/-- `GameEngine.get_player`. -/
def GameEngine.get_player (e : GameEngine) (pid : String) : Option Player :=
  alookup e.players pid

/-- `GameEngine.add_achievement_rule`. -/
def GameEngine.add_achievement_rule (e : GameEngine) (r : AchievementRule) :
    GameEngine :=
  { e with achievement_rules := e.achievement_rules ++ [r] }

/-- `GameEngine.add_challenge`: allocates the caller's challenge object and
stores the reference in the catalog under `challenge.id`. -/
def GameEngine.add_challenge (e : GameEngine) (c : Challenge) : GameEngine :=
  { e with heap := e.heap ++ [c],
           challenge_catalog := aupdate e.challenge_catalog c.id e.heap.length }

/-- `GameEngine.assign_challenge`: when both the player and the catalog
entry exist, the player starts the *same* challenge object the catalog
references. -/
def GameEngine.assign_challenge (e : GameEngine) (pid cid : String) :
    GameEngine × Bool :=
  match alookup e.players pid, alookup e.challenge_catalog cid with
  | some p, some oid =>
    ({ e with players := aupdate e.players pid (p.start_challenge e.heap oid) },
     true)
  | _, _ => (e, false)

/-- The loop body of `GameEngine._check_achievements`: walk the rules in
registration order, skip rules whose achievement the player already holds,
and grant (mutating the player) when the predicate fires.  Returns the
updated player and the newly earned achievements in firing order. -/
def checkRules (rules : List AchievementRule) (p : Player) (now : Nat) :
    Player × List Achievement :=
  match rules with
  | [] => (p, [])
  | r :: rest =>
    if !p.hasAch r.achievement.id && r.check p then
      let p1 := p.earn_achievement r.achievement now
      let pr := checkRules rest p1 now
      (pr.1, r.achievement :: pr.2)
    else
      checkRules rest p now

/-- `GameEngine._check_achievements` together with its
`achievement_earned` trigger invocations. -/
def GameEngine.check_achievements (e : GameEngine) (pid : String) (now : Nat) :
    GameEngine × List Event :=
  match alookup e.players pid with
  | none => (e, [])
  | some p =>
    let pr := checkRules e.achievement_rules p now
    ({ e with players := aupdate e.players pid pr.1 },
     pr.2.map (fun a => Event.achievement_earned pid a))

/-- `GameEngine.complete_player_challenge`: returns the new engine, the
events fired (`challenge_completed` then any `achievement_earned`), and the
boolean result. -/
def GameEngine.complete_player_challenge (e : GameEngine) (pid cid : String)
    (now : Nat) : GameEngine × List Event × Bool :=
  match alookup e.players pid with
  | none => (e, [], false)
  | some p =>
    let r := p.complete_challenge e.heap cid now
    if r.2.2 then
      let e1 := { e with players := aupdate e.players pid r.1, heap := r.2.1 }
      let cr := e1.check_achievements pid now
      (cr.1, Event.challenge_completed pid cid :: cr.2, true)
    else
      (e, [], false)

/-- `GameEngine.award_experience`: returns the new engine, the events fired
(`level_up` when the player levelled, then any `achievement_earned`), and
the levelled-up boolean. -/
def GameEngine.award_experience (e : GameEngine) (pid : String) (amount : Int)
    (now : Nat) : GameEngine × List Event × Bool :=
  match alookup e.players pid with
  | none => (e, [], false)
  | some p =>
    let r := p.add_experience amount now
    let e1 := { e with players := aupdate e.players pid r.1 }
    let cr := e1.check_achievements pid now
    (cr.1, (if r.2 then [Event.level_up pid] else []) ++ cr.2, r.2)

/-- The comparator realised by Python's
`sorted(players, key=lambda p: p.total_points, reverse=True)`. -/
def pointsDescLe (p q : Player) : Bool :=
  decide (q.total_points ≤ p.total_points)

/-- The stable descending sort inside `GameEngine.get_leaderboard`. -/
def GameEngine.sorted_players (e : GameEngine) : List Player :=
  (e.players.map Prod.snd).mergeSort pointsDescLe

structure LeaderboardEntry where
  rank : Nat
  summary : ProgressSummary
deriving DecidableEq, Repr

/-- `GameEngine.get_leaderboard`. -/
def GameEngine.get_leaderboard (e : GameEngine) (top_n : Nat) (now : Nat) :
    List LeaderboardEntry :=
  ((e.sorted_players.take top_n).enum).map
    (fun ip => { rank := ip.1 + 1,
                 summary := ip.2.get_progress_summary e.heap now })

/-- Record returned by `GameEngine.get_stats`. -/
structure Stats where
  total_players : Nat
  total_achievements_rules : Nat
  total_challenges : Nat
  average_player_level : Rat
deriving DecidableEq, Repr

/-- `GameEngine.get_stats`; the average is a guarded true division. -/
def GameEngine.get_stats (e : GameEngine) : Stats :=
  { total_players := e.players.length,
    total_achievements_rules := e.achievement_rules.length,
    total_challenges := e.challenge_catalog.length,
    average_player_level :=
      if e.players.isEmpty then 0
      else (((e.players.map (fun kv => kv.2.level)).foldl (· + ·) 0 : Int) : Rat)
             / (e.players.length : Rat) }

/-- One state-mutating engine call, for reasoning about reachable states. -/
inductive Op where
  | register (pid uname : String) (now : Nat)
  | addRule (r : AchievementRule)
  | addChallenge (c : Challenge)
  | assign (pid cid : String)
  | complete (pid cid : String) (now : Nat)
  | award (pid : String) (amount : Int) (now : Nat)

/-- Effect of one engine call on the state, together with the events it
fires.  A duplicate registration raises, leaving the state unchanged. -/
def GameEngine.stepT (e : GameEngine) : Op → GameEngine × List Event
  | .register pid uname now =>
    match e.register_player pid uname now with
    | .ok r => (r.1, [])
    | .error _ => (e, [])
  | .addRule r => (e.add_achievement_rule r, [])
  | .addChallenge c => (e.add_challenge c, [])
  | .assign pid cid => ((e.assign_challenge pid cid).1, [])
  | .complete pid cid now =>
    let r := e.complete_player_challenge pid cid now
    (r.1, r.2.1)
  | .award pid amount now =>
    let r := e.award_experience pid amount now
    (r.1, r.2.1)

/-- Run a sequence of engine calls, accumulating the event trace. -/
def GameEngine.run : GameEngine → List Op → GameEngine × List Event
  | e, [] => (e, [])
  | e, op :: rest =>
    let s := e.stepT op
    let r := s.1.run rest
    (r.1, s.2 ++ r.2)

/-- The claims quantify over non-negative experience amounts and
non-negative point values. -/
def validOp : Op → Bool
  | .award _ amount _ => decide (0 ≤ amount)
  | .addChallenge c => decide (0 ≤ c.points)
  | .addRule r => decide (0 ≤ r.achievement.points)
  | _ => true

/-- Three registered players with total points 30, 10, 20 (in registration
order), as in the leaderboard example of the spec. -/
def exampleLBEngine : GameEngine :=
  { heap := [], achievement_rules := [], challenge_catalog := [],
    players :=
      [("a", { Player.init "a" "ua" 0 with total_points := 30 }),
       ("b", { Player.init "b" "ub" 0 with total_points := 10 }),
       ("c", { Player.init "c" "uc" 0 with total_points := 20 })] }

/-- A 150-point challenge: completing it levels a fresh player from 1 to 2,
yet the `complete` path fires no `level_up` event. -/
def exampleChallengeC8 : Challenge :=
  { id := "c8", name := "big", description := "d", difficulty := 2,
    skills := [Skill.ml], points := 150 }

/-- Register a player, add the 150-point challenge, assign and complete it. -/
def opsC8 : List Op :=
  [Op.register "p1" "u" 0, Op.addChallenge exampleChallengeC8,
   Op.assign "p1" "c8", Op.complete "p1" "c8" 1]

/-- The engine state and result after: add challenge `c` to the catalog,
assign it to `pid1` and to `pid2`, then complete it for `pid1`. -/
def c2State (e : GameEngine) (c : Challenge) (pid1 pid2 : String) (t1 : Nat) :
    GameEngine × List Event × Bool :=
  let e1 := e.add_challenge c
  let e2 := (e1.assign_challenge pid1 c.id).1
  let e3 := (e2.assign_challenge pid2 c.id).1
  e3.complete_player_challenge pid1 c.id t1

/-- A 40-point challenge shared between two players. -/
def exampleChallengeC2 : Challenge :=
  { id := "c1", name := "n", description := "d", difficulty := 1,
    skills := [Skill.nlp], points := 40 }

/-- Register two players, add the shared challenge, assign it to both, and
complete it for the first player. -/
def opsC2 : List Op :=
  [Op.register "p1" "a" 0, Op.register "p2" "b" 0,
   Op.addChallenge exampleChallengeC2, Op.assign "p1" "c1",
   Op.assign "p2" "c1", Op.complete "p1" "c1" 1]

/-- Register one player and award 350 experience: the carry-over exceeds
the next level-2 threshold (experience 250 ≥ 200), refuting the claimed
bound `experience < 100 × level`. -/
def opsC3 : List Op :=
  [Op.register "p1" "alice" 0, Op.award "p1" 350 1]

/-- Rule granting a 5-point achievement once the player reaches level 2. -/
def exampleRuleC4 : AchievementRule :=
  { achievement :=
      { id := "lvl2", name := "Level 2", description := "d",
        category := "level", points := 5 },
    condition := fun p => decide (2 ≤ p.level) }

/-- Add the level-2 rule, register a player, then award experience twice;
the first award levels the player to 2 and must fire `achievement_earned`
exactly once in the whole run. -/
def opsC4 : List Op :=
  [Op.addRule exampleRuleC4, Op.register "p1" "u" 0,
   Op.award "p1" 150 1, Op.award "p1" 10 2]

/-- The engine state after `complete_player_challenge` stores the mutated
player and heap, before the rule pass. -/
def completeMidEngine (e : GameEngine) (pid0 : String)
    (r : Player × List Challenge × Bool) : GameEngine :=
  { e with players := aupdate e.players pid0 r.1, heap := r.2.1 }

/-- The engine state after `award_experience` stores the mutated player,
before the rule pass. -/
def awardMidEngine (e : GameEngine) (pid0 : String) (p1 : Player) :
    GameEngine :=
  { e with players := aupdate e.players pid0 p1 }

/-- The progression invariants of the data model (without the refuted
threshold bound): level at least 1, experience and total points
non-negative. -/
def PlayerInvOk (p : Player) : Prop :=
  1 ≤ p.level ∧ 0 ≤ p.experience ∧ 0 ≤ p.total_points

/-- Engine-wide invariant: every registered player satisfies the
progression invariants and every challenge object and rule reward carries
non-negative points. -/
def EngineInvOk (e : GameEngine) : Prop :=
  (∀ kv ∈ e.players, PlayerInvOk kv.2) ∧
  (∀ c ∈ e.heap, 0 ≤ c.points) ∧
  (∀ r ∈ e.achievement_rules, 0 ≤ r.achievement.points)

/-- Number of achievements with a given id in a list. -/
def countAid (aid : String) (l : List Achievement) : Nat :=
  (l.filter (fun a => a.id == aid)).length

/-- Recognise an `achievement_earned` trigger for a given player and
achievement id. -/
def isEarnedEv (pid aid : String) : Event → Bool
  | .achievement_earned q a => q == pid && a.id == aid
  | _ => false

/-- Number of `achievement_earned` triggers for a given player and
achievement id in a trace. -/
def countEarned (pid aid : String) (evs : List Event) : Nat :=
  (evs.filter (isEarnedEv pid aid)).length

/-- Recognise a `level_up` trigger. -/
def isLevelUpEv : Event → Bool
  | .level_up _ => true
  | _ => false

/-- Number of `level_up` triggers in a trace. -/
def countLevelUp (evs : List Event) : Nat :=
  (evs.filter isLevelUpEv).length

/-- Whether the engine's registered player `pid` currently holds the
achievement id `aid`. -/
def GameEngine.hasAchievement (e : GameEngine) (pid aid : String) : Bool :=
  match alookup e.players pid with
  | some p => p.hasAch aid
  | none => false

/-! ### Association list lemmas -/

theorem alookup_aupdate_self {α : Type} (l : List (String × α)) (k : String)
    (v : α) : alookup (aupdate l k v) k = some v := by
  induction l with
  | nil => simp [aupdate, alookup]
  | cons kv rest ih =>
    by_cases h : kv.1 = k
    · simp [aupdate, alookup, h]
    · simp [aupdate, alookup, h, ih]

theorem alookup_aupdate_ne {α : Type} (l : List (String × α)) (k k' : String)
    (v : α) (h : k ≠ k') : alookup (aupdate l k v) k' = alookup l k' := by
  induction l with
  | nil => simp [aupdate, alookup, h]
  | cons kv rest ih =>
    by_cases hk : kv.1 = k
    · simp [aupdate, alookup, hk, h]
    · simp [aupdate, alookup, hk, ih]

theorem alookup_append_single {α : Type} (l : List (String × α))
    (k k' : String) (v : α) :
    alookup (l ++ [(k, v)]) k' =
      match alookup l k' with
      | some x => some x
      | none => if k = k' then some v else none := by
  induction l with
  | nil => simp [alookup]
  | cons kv rest ih =>
    by_cases h : kv.1 = k'
    · simp [alookup, h]
    · simp [alookup, h, ih]

theorem mem_aupdate {α : Type} (l : List (String × α)) (k : String) (v : α)
    (kv : String × α) (h : kv ∈ aupdate l k v) : kv.2 = v ∨ kv ∈ l := by
  induction l with
  | nil =>
    simp [aupdate] at h
    simp [h]
  | cons kv0 rest ih =>
    by_cases hk : kv0.1 = k
    · simp [aupdate, hk] at h
      rcases h with h | h
      · simp [h]
      · exact Or.inr (List.mem_cons_of_mem _ h)
    · simp only [aupdate, hk, if_false, List.mem_cons] at h
      rcases h with h | h
      · exact Or.inr (h ▸ List.mem_cons_self _ _)
      · rcases ih h with h' | h'
        · exact Or.inl h'
        · exact Or.inr (List.mem_cons_of_mem _ h')

theorem alookup_mem {α : Type} (l : List (String × α)) (k : String) (v : α)
    (h : alookup l k = some v) : (k, v) ∈ l := by
  induction l with
  | nil => simp [alookup] at h
  | cons kv rest ih =>
    by_cases hk : kv.1 = k
    · simp [alookup, hk] at h
      exact List.mem_cons.mpr (Or.inl (by cases kv; simp_all))
    · simp [alookup, hk] at h
      exact List.mem_cons_of_mem _ (ih h)

/-! ### Heap lemmas -/

theorem heapGet_append_length (heap : List Challenge) (c : Challenge) :
    heapGet (heap ++ [c]) heap.length = c := by
  simp [heapGet, List.get?_eq_getElem?]

theorem heapGet_heapSet_self (heap : List Challenge) (oid : Nat)
    (c : Challenge) (h : oid < heap.length) :
    heapGet (heapSet heap oid c) oid = c := by
  simp [heapGet, heapSet, List.get?_eq_getElem?, List.getElem?_set_self' , h]

theorem heapGet_heapSet_ne (heap : List Challenge) (oid oid' : Nat)
    (c : Challenge) (h : oid ≠ oid') :
    heapGet (heapSet heap oid c) oid' = heapGet heap oid' := by
  simp [heapGet, heapSet, List.get?_eq_getElem?, List.getElem?_set_ne h]

theorem heapGet_completed_lt (heap : List Challenge) (oid : Nat)
    (h : (heapGet heap oid).completed = false) : oid < heap.length := by
  by_contra hlt
  have hn : heap[oid]? = none := List.getElem?_eq_none (Nat.le_of_not_lt hlt)
  simp [heapGet, List.get?_eq_getElem?, hn] at h

/-! ### `add_experience` lemmas -/

theorem add_experience_level (p : Player) (amount : Int) (now : Nat) :
    (p.add_experience amount now).1.level =
      if 100 * p.level ≤ p.experience + amount then p.level + 1 else p.level := by
  simp only [Player.add_experience]
  split
  next h => rfl
  next h => rfl

theorem add_experience_exp (p : Player) (amount : Int) (now : Nat) :
    (p.add_experience amount now).1.experience =
      if 100 * p.level ≤ p.experience + amount then
        p.experience + amount - 100 * p.level
      else p.experience + amount := by
  simp only [Player.add_experience]
  split
  next h => rfl
  next h => rfl

theorem add_experience_snd (p : Player) (amount : Int) (now : Nat) :
    (p.add_experience amount now).2 =
      decide (100 * p.level ≤ p.experience + amount) := by
  simp only [Player.add_experience]
  split
  next h => simp [h]
  next h => simp [h]

theorem add_experience_frame (p : Player) (amount : Int) (now : Nat) :
    (p.add_experience amount now).1.total_points = p.total_points ∧
    (p.add_experience amount now).1.achievements = p.achievements ∧
    (p.add_experience amount now).1.challenges = p.challenges ∧
    (p.add_experience amount now).1.skill_levels = p.skill_levels ∧
    (p.add_experience amount now).1.player_id = p.player_id := by
  simp only [Player.add_experience]
  split <;> exact ⟨rfl, rfl, rfl, rfl, rfl⟩

theorem add_experience_inv (p : Player) (amount : Int) (now : Nat)
    (hl : 1 ≤ p.level) (he : 0 ≤ p.experience) (ha : 0 ≤ amount) :
    1 ≤ (p.add_experience amount now).1.level ∧
    0 ≤ (p.add_experience amount now).1.experience := by
  rw [add_experience_level, add_experience_exp]
  constructor
  · split <;> omega
  · split <;> omega

/-! ### `hasAch` and `earn_achievement` lemmas -/

theorem hasAch_append_self (p : Player) (a : Achievement)
    (l : List Achievement) :
    (Player.hasAch { p with achievements := l ++ [a] } a.id) = true := by
  simp [Player.hasAch]

theorem earn_achievement_of_has (p : Player) (a : Achievement) (now : Nat)
    (h : p.hasAch a.id = true) : p.earn_achievement a now = p := by
  simp [Player.earn_achievement, h]

theorem earn_achievement_achievements (p : Player) (a : Achievement)
    (now : Nat) (h : p.hasAch a.id = false) :
    (p.earn_achievement a now).achievements = p.achievements ++ [a] := by
  simp [Player.earn_achievement, h]
  exact (add_experience_frame _ _ _).2.1

theorem earn_achievement_total_points (p : Player) (a : Achievement)
    (now : Nat) (h : p.hasAch a.id = false) :
    (p.earn_achievement a now).total_points = p.total_points + a.points := by
  simp [Player.earn_achievement, h]
  exact (add_experience_frame _ _ _).1

theorem earn_achievement_hasAch_self (p : Player) (a : Achievement)
    (now : Nat) : (p.earn_achievement a now).hasAch a.id = true := by
  by_cases h : p.hasAch a.id
  · rw [earn_achievement_of_has p a now h]
    exact h
  · have hach := earn_achievement_achievements p a now (by simp_all)
    unfold Player.hasAch
    rw [hach]
    simp

theorem earn_achievement_hasAch_mono (p : Player) (a : Achievement)
    (now : Nat) (aid : String) (h : p.hasAch aid = true) :
    (p.earn_achievement a now).hasAch aid = true := by
  by_cases hh : p.hasAch a.id
  · rw [earn_achievement_of_has p a now hh]
    exact h
  · have hach := earn_achievement_achievements p a now (by simp_all)
    unfold Player.hasAch at h ⊢
    rw [hach]
    simp only [List.any_append, Bool.or_eq_true]
    exact Or.inl h

theorem earn_achievement_hasAch_other (p : Player) (a : Achievement)
    (now : Nat) (aid : String) (hne : a.id ≠ aid) :
    (p.earn_achievement a now).hasAch aid = p.hasAch aid := by
  by_cases hh : p.hasAch a.id
  · rw [earn_achievement_of_has p a now hh]
  · have hach := earn_achievement_achievements p a now (by simp_all)
    unfold Player.hasAch
    rw [hach]
    simp [hne]

theorem earn_achievement_frame (p : Player) (a : Achievement) (now : Nat) :
    (p.earn_achievement a now).challenges = p.challenges ∧
    (p.earn_achievement a now).skill_levels = p.skill_levels ∧
    (p.earn_achievement a now).player_id = p.player_id := by
  unfold Player.earn_achievement
  split
  · exact ⟨rfl, rfl, rfl⟩
  · refine ⟨?_, ?_, ?_⟩
    · exact (add_experience_frame _ _ _).2.2.1
    · exact (add_experience_frame _ _ _).2.2.2.1
    · exact (add_experience_frame _ _ _).2.2.2.2

theorem earn_achievement_level (p : Player) (a : Achievement) (now : Nat)
    (h : p.hasAch a.id = false) :
    (p.earn_achievement a now).level =
      if 100 * p.level ≤ p.experience + a.points then p.level + 1
      else p.level := by
  simp only [Player.earn_achievement, h, Bool.false_eq_true, if_false]
  rw [add_experience_level]

theorem earn_achievement_exp (p : Player) (a : Achievement) (now : Nat)
    (h : p.hasAch a.id = false) :
    (p.earn_achievement a now).experience =
      if 100 * p.level ≤ p.experience + a.points then
        p.experience + a.points - 100 * p.level
      else p.experience + a.points := by
  simp only [Player.earn_achievement, h, Bool.false_eq_true, if_false]
  rw [add_experience_exp]

theorem earn_achievement_inv (p : Player) (a : Achievement) (now : Nat)
    (hl : 1 ≤ p.level) (he : 0 ≤ p.experience) (hp : 0 ≤ p.total_points)
    (hpts : 0 ≤ a.points) :
    1 ≤ (p.earn_achievement a now).level ∧
    0 ≤ (p.earn_achievement a now).experience ∧
    p.total_points ≤ (p.earn_achievement a now).total_points := by
  by_cases h : p.hasAch a.id
  · rw [earn_achievement_of_has p a now h]
    exact ⟨hl, he, le_refl _⟩
  · have hf : p.hasAch a.id = false := by simp_all
    rw [earn_achievement_level p a now hf, earn_achievement_exp p a now hf,
      earn_achievement_total_points p a now hf]
    refine ⟨?_, ?_, ?_⟩
    · split <;> omega
    · split <;> omega
    · omega

/-! ### Skill-level lemmas -/

theorem bump_get (s : SkillLevels) (x y : Skill) :
    (s.bump x).get y = s.get y + (if y = x then 1 else 0) := by
  cases x <;> cases y <;> simp [SkillLevels.bump, SkillLevels.get]

theorem foldl_bump_get (l : List Skill) (s : SkillLevels) (sk : Skill) :
    (l.foldl SkillLevels.bump s).get sk = s.get sk + (l.count sk : Int) := by
  induction l generalizing s with
  | nil => simp
  | cons x t ih =>
    rw [List.foldl_cons, ih, bump_get]
    by_cases h : sk = x
    · subst h
      rw [List.count_cons_self]
      push_cast
      simp
      omega
    · rw [List.count_cons_of_ne h]
      simp [h]

/-! ### `checkRules` lemmas -/

theorem countAid_cons (aid : String) (a : Achievement) (l : List Achievement) :
    countAid aid (a :: l) =
      (if a.id = aid then 1 else 0) + countAid aid l := by
  by_cases h : a.id = aid <;> simp [countAid, List.filter_cons, h] <;> omega

theorem checkRules_hasAch_mono (rules : List AchievementRule) (p : Player)
    (now : Nat) (aid : String) (h : p.hasAch aid = true) :
    (checkRules rules p now).1.hasAch aid = true := by
  induction rules generalizing p with
  | nil => exact h
  | cons r rest ih =>
    simp only [checkRules]
    split
    · exact ih _ (earn_achievement_hasAch_mono _ _ _ _ h)
    · exact ih _ h

theorem checkRules_count (rules : List AchievementRule) (p : Player)
    (now : Nat) (aid : String) :
    countAid aid (checkRules rules p now).2 =
      if p.hasAch aid then 0
      else if (checkRules rules p now).1.hasAch aid then 1 else 0 := by
  induction rules generalizing p with
  | nil =>
    simp only [checkRules, countAid, List.filter_nil, List.length_nil]
    by_cases h : p.hasAch aid <;> simp [h]
  | cons r rest ih =>
    simp only [checkRules]
    split
    next hcond =>
      have hna : p.hasAch r.achievement.id = false := by
        have := (Bool.and_eq_true _ _).mp hcond
        simpa using this.1
      rw [countAid_cons]
      by_cases haid : r.achievement.id = aid
      · subst haid
        have h1 := earn_achievement_hasAch_self p r.achievement now
        have hm := checkRules_hasAch_mono rest _ now _ h1
        rw [ih _]
        simp [hna, h1, hm]
      · have he := earn_achievement_hasAch_other p r.achievement now aid haid
        rw [ih _]
        simp [haid, he]
    next hcond =>
      exact ih p

theorem checkRules_sublist (rules : List AchievementRule) (p : Player)
    (now : Nat) :
    List.Sublist (checkRules rules p now).2
      (rules.map (fun r => r.achievement)) := by
  induction rules generalizing p with
  | nil => simp [checkRules]
  | cons r rest ih =>
    simp only [checkRules, List.map_cons]
    split
    · exact List.Sublist.cons₂ _ (ih _)
    · exact List.Sublist.cons _ (ih _)

theorem checkRules_skip (rules : List AchievementRule) (p : Player)
    (now : Nat) (aid : String) (h : p.hasAch aid = true) :
    ∀ a ∈ (checkRules rules p now).2, a.id ≠ aid := by
  intro a ha heq
  have hc := checkRules_count rules p now aid
  rw [if_pos h] at hc
  have : 0 < countAid aid (checkRules rules p now).2 := by
    simp only [countAid]
    have : a ∈ (checkRules rules p now).2.filter (fun a => a.id == aid) :=
      List.mem_filter.mpr ⟨ha, by simp [heq]⟩
    exact List.length_pos.mpr (List.ne_nil_of_mem this)
  omega

theorem checkRules_granted (rules : List AchievementRule) (p : Player)
    (now : Nat) :
    ∀ a ∈ (checkRules rules p now).2,
      (checkRules rules p now).1.hasAch a.id = true := by
  induction rules generalizing p with
  | nil => simp [checkRules]
  | cons r rest ih =>
    simp only [checkRules]
    split
    next hcond =>
      intro a ha
      rcases List.mem_cons.mp ha with h | h
      · subst h
        exact checkRules_hasAch_mono rest _ now _
          (earn_achievement_hasAch_self p r.achievement now)
      · exact ih _ a h
    next hcond =>
      exact ih p

theorem checkRules_frame (rules : List AchievementRule) (p : Player)
    (now : Nat) :
    (checkRules rules p now).1.challenges = p.challenges ∧
    (checkRules rules p now).1.skill_levels = p.skill_levels ∧
    (checkRules rules p now).1.player_id = p.player_id := by
  induction rules generalizing p with
  | nil => exact ⟨rfl, rfl, rfl⟩
  | cons r rest ih =>
    simp only [checkRules]
    split
    · have hf := earn_achievement_frame p r.achievement now
      have hr := ih (p.earn_achievement r.achievement now)
      exact ⟨hr.1.trans hf.1, hr.2.1.trans hf.2.1, hr.2.2.trans hf.2.2⟩
    · exact ih p

theorem checkRules_inv (rules : List AchievementRule) (p : Player) (now : Nat)
    (hrules : ∀ r ∈ rules, 0 ≤ r.achievement.points)
    (hl : 1 ≤ p.level) (he : 0 ≤ p.experience) (hp : 0 ≤ p.total_points) :
    1 ≤ (checkRules rules p now).1.level ∧
    0 ≤ (checkRules rules p now).1.experience ∧
    p.total_points ≤ (checkRules rules p now).1.total_points := by
  induction rules generalizing p with
  | nil => exact ⟨hl, he, le_refl _⟩
  | cons r rest ih =>
    have hr0 : 0 ≤ r.achievement.points := hrules r (List.mem_cons_self _ _)
    have hrest : ∀ r' ∈ rest, 0 ≤ r'.achievement.points :=
      fun r' h => hrules r' (List.mem_cons_of_mem _ h)
    simp only [checkRules]
    split
    · have hearn := earn_achievement_inv p r.achievement now hl he hp hr0
      have := ih (p.earn_achievement r.achievement now) hrest hearn.1 hearn.2.1
        (le_trans hp hearn.2.2)
      exact ⟨this.1, this.2.1, le_trans hearn.2.2 this.2.2⟩
    · exact ih p hrest hl he hp

/-! ### `start_challenge` and `complete_challenge` lemmas -/

theorem start_challenge_frame (p : Player) (heap : List Challenge) (oid : Nat) :
    (p.start_challenge heap oid).total_points = p.total_points ∧
    (p.start_challenge heap oid).achievements = p.achievements ∧
    (p.start_challenge heap oid).level = p.level ∧
    (p.start_challenge heap oid).experience = p.experience ∧
    (p.start_challenge heap oid).skill_levels = p.skill_levels := by
  simp only [Player.start_challenge]
  split <;> exact ⟨rfl, rfl, rfl, rfl, rfl⟩

theorem start_challenge_fresh (p : Player) (heap : List Challenge) (oid : Nat)
    (h : alookup p.challenges (heapGet heap oid).id = none) :
    (p.start_challenge heap oid).challenges =
      p.challenges ++ [((heapGet heap oid).id, oid)] := by
  simp only [Player.start_challenge, h, Option.isSome_none, Bool.false_eq_true,
    if_false]

theorem complete_challenge_none (p : Player) (heap : List Challenge)
    (cid : String) (now : Nat) (h : alookup p.challenges cid = none) :
    p.complete_challenge heap cid now = (p, heap, false) := by
  simp only [Player.complete_challenge, h]

theorem complete_challenge_already (p : Player) (heap : List Challenge)
    (cid : String) (now : Nat) (oid : Nat)
    (h : alookup p.challenges cid = some oid)
    (hc : (heapGet heap oid).completed = true) :
    p.complete_challenge heap cid now = (p, heap, false) := by
  simp only [Player.complete_challenge, h, hc, if_true]

theorem complete_challenge_success (p : Player) (heap : List Challenge)
    (cid : String) (now : Nat) (oid : Nat)
    (h : alookup p.challenges cid = some oid)
    (hc : (heapGet heap oid).completed = false) :
    (p.complete_challenge heap cid now).2.2 = true ∧
    (p.complete_challenge heap cid now).2.1 =
      heapSet heap oid
        { heapGet heap oid with completed := true, completed_at := some now } ∧
    (p.complete_challenge heap cid now).1.total_points =
      p.total_points + (heapGet heap oid).points ∧
    (p.complete_challenge heap cid now).1.level =
      (if 100 * p.level ≤ p.experience + (heapGet heap oid).points
        then p.level + 1 else p.level) ∧
    (p.complete_challenge heap cid now).1.experience =
      (if 100 * p.level ≤ p.experience + (heapGet heap oid).points
        then p.experience + (heapGet heap oid).points - 100 * p.level
        else p.experience + (heapGet heap oid).points) ∧
    (∀ sk, (p.complete_challenge heap cid now).1.skill_levels.get sk =
      p.skill_levels.get sk + ((heapGet heap oid).skills.count sk : Int)) ∧
    (p.complete_challenge heap cid now).1.achievements = p.achievements ∧
    (p.complete_challenge heap cid now).1.challenges = p.challenges ∧
    (p.complete_challenge heap cid now).1.player_id = p.player_id := by
  simp only [Player.complete_challenge, h, hc, Bool.false_eq_true, if_false]
  have hf := add_experience_frame
    { p with total_points := p.total_points + (heapGet heap oid).points }
    (heapGet heap oid).points now
  have hlev := add_experience_level
    { p with total_points := p.total_points + (heapGet heap oid).points }
    (heapGet heap oid).points now
  have hexp := add_experience_exp
    { p with total_points := p.total_points + (heapGet heap oid).points }
    (heapGet heap oid).points now
  refine ⟨by trivial, by trivial, hf.1, hlev, hexp, ?_, hf.2.1, hf.2.2.1,
    hf.2.2.2.2⟩
  intro sk
  rw [foldl_bump_get]
  rw [hf.2.2.2.1]

theorem complete_challenge_cases (p : Player) (heap : List Challenge)
    (cid : String) (now : Nat) :
    (p.complete_challenge heap cid now).2.2 = true ∨
      p.complete_challenge heap cid now = (p, heap, false) := by
  match hl : alookup p.challenges cid with
  | none => exact Or.inr (complete_challenge_none p heap cid now hl)
  | some oid =>
    by_cases hc : (heapGet heap oid).completed
    · exact Or.inr (complete_challenge_already p heap cid now oid hl hc)
    · exact Or.inl (complete_challenge_success p heap cid now oid hl
        (by simp_all)).1

/-! ### Claim theorems -/

/-- C1: for every player and non-negative amount, `Player.add_experience`
adds the amount and applies at most one level-up: when the accumulated
experience meets the threshold `100 * level`, the level rises by exactly
one, the threshold is carried over (subtracted, not reset), and the call
reports `true`; otherwise level is unchanged, experience is the plain sum,
and the call reports `false`. -/
theorem C1_add_experience_spec (p : Player) (amount : Int) (now : Nat)
    (hamount : 0 ≤ amount) :
    ((p.add_experience amount now).2 =
      decide (100 * p.level ≤ p.experience + amount)) ∧
    (100 * p.level ≤ p.experience + amount →
      (p.add_experience amount now).1.level = p.level + 1 ∧
      (p.add_experience amount now).1.experience =
        p.experience + amount - 100 * p.level ∧
      (p.add_experience amount now).2 = true) ∧
    (p.experience + amount < 100 * p.level →
      (p.add_experience amount now).1.level = p.level ∧
      (p.add_experience amount now).1.experience = p.experience + amount ∧
      (p.add_experience amount now).2 = false) := by
  refine ⟨add_experience_snd p amount now, ?_, ?_⟩
  · intro h
    rw [add_experience_level, add_experience_exp, add_experience_snd,
      if_pos h, if_pos h]
    simp [h]
  · intro h
    have hn : ¬ 100 * p.level ≤ p.experience + amount := by omega
    rw [add_experience_level, add_experience_exp, add_experience_snd,
      if_neg hn, if_neg hn]
    simp [hn]

/-- Witness for C1: at level 1 with experience 0, adding 150 yields level 2
and experience 50; adding 250 yields level 2 and experience 150. -/
theorem C1_witness :
    (0 : Int) ≤ 150 ∧ (0 : Int) ≤ 250 ∧
    ((Player.init "p1" "alice" 0).add_experience 150 1).1.level = 2 ∧
    ((Player.init "p1" "alice" 0).add_experience 150 1).1.experience = 50 ∧
    ((Player.init "p1" "alice" 0).add_experience 150 1).2 = true ∧
    ((Player.init "p1" "alice" 0).add_experience 250 1).1.level = 2 ∧
    ((Player.init "p1" "alice" 0).add_experience 250 1).1.experience = 150 := by
  have h1 := (C1_add_experience_spec (Player.init "p1" "alice" 0) 150 1
    (by decide)).2.1 (by decide)
  have h2 := (C1_add_experience_spec (Player.init "p1" "alice" 0) 250 1
    (by decide)).2.1 (by decide)
  refine ⟨by decide, by decide, ?_, ?_, h1.2.2, ?_, ?_⟩
  · rw [h1.1]; decide
  · rw [h1.2.1]; decide
  · rw [h2.1]; decide
  · rw [h2.2.1]; decide

/-- C5: `Player.complete_challenge` returns false exactly when the id is
not among the player's assigned challenges or the referenced challenge is
already completed, and then changes nothing; on success it marks the
challenge completed, stamps `completed_at`, adds the points to
`total_points` and to experience (with at most one level-up), bumps every
targeted skill by exactly one, and returns true. -/
theorem C5_complete_challenge_spec (p : Player) (heap : List Challenge)
    (cid : String) (now : Nat) :
    ((p.complete_challenge heap cid now).2.2 = false ↔
      alookup p.challenges cid = none ∨
        ∃ oid, alookup p.challenges cid = some oid ∧
          (heapGet heap oid).completed = true) ∧
    ((p.complete_challenge heap cid now).2.2 = false →
      (p.complete_challenge heap cid now).1 = p ∧
      (p.complete_challenge heap cid now).2.1 = heap) ∧
    (∀ oid, alookup p.challenges cid = some oid →
      (heapGet heap oid).completed = false →
      (p.complete_challenge heap cid now).2.2 = true ∧
      (heapGet (p.complete_challenge heap cid now).2.1 oid).completed = true ∧
      (heapGet (p.complete_challenge heap cid now).2.1 oid).completed_at =
        some now ∧
      (p.complete_challenge heap cid now).1.total_points =
        p.total_points + (heapGet heap oid).points ∧
      (p.complete_challenge heap cid now).1.level =
        (if 100 * p.level ≤ p.experience + (heapGet heap oid).points
          then p.level + 1 else p.level) ∧
      (p.complete_challenge heap cid now).1.experience =
        (if 100 * p.level ≤ p.experience + (heapGet heap oid).points
          then p.experience + (heapGet heap oid).points - 100 * p.level
          else p.experience + (heapGet heap oid).points) ∧
      ((heapGet heap oid).skills.Nodup →
        ∀ sk, (p.complete_challenge heap cid now).1.skill_levels.get sk =
          p.skill_levels.get sk +
            (if sk ∈ (heapGet heap oid).skills then 1 else 0))) := by
  refine ⟨?_, ?_, ?_⟩
  · constructor
    · intro hfalse
      match hl : alookup p.challenges cid with
      | none => exact Or.inl rfl
      | some oid =>
        by_cases hc : (heapGet heap oid).completed
        · exact Or.inr ⟨oid, rfl, hc⟩
        · have := (complete_challenge_success p heap cid now oid hl
            (by simp_all)).1
          rw [this] at hfalse
          cases hfalse
    · intro h
      rcases h with h | ⟨oid, hl, hc⟩
      · rw [complete_challenge_none p heap cid now h]
      · rw [complete_challenge_already p heap cid now oid hl hc]
  · intro hfalse
    rcases complete_challenge_cases p heap cid now with h | h
    · rw [h] at hfalse
      cases hfalse
    · rw [h]
      exact ⟨rfl, rfl⟩
  · intro oid hl hc
    have hs := complete_challenge_success p heap cid now oid hl hc
    have hlt : oid < heap.length := heapGet_completed_lt heap oid hc
    have hget : heapGet (p.complete_challenge heap cid now).2.1 oid =
        { heapGet heap oid with completed := true, completed_at := some now } := by
      rw [hs.2.1]
      exact heapGet_heapSet_self heap oid _ hlt
    refine ⟨hs.1, by rw [hget], by rw [hget], hs.2.2.1, hs.2.2.2.1,
      hs.2.2.2.2.1, ?_⟩
    intro hnd sk
    rw [hs.2.2.2.2.2.1 sk]
    by_cases hmem : sk ∈ (heapGet heap oid).skills
    · rw [if_pos hmem, List.count_eq_one_of_mem hnd hmem]
      simp
    · rw [if_neg hmem, List.count_eq_zero_of_not_mem hmem]
      simp

/-- Witness for C5: a concrete player holding one fresh 30-point
nlp-challenge: completing an unknown id fails and changes nothing, and
completing the held challenge succeeds with the specified effects. -/
theorem C5_witness :
    (((Player.init "w5" "u5" 0)).complete_challenge
        [{ id := "c", name := "n", description := "d", difficulty := 1,
           skills := [Skill.nlp], points := 30 }] "nope" 3).2.2 = false ∧
    (let p : Player :=
      { Player.init "w5" "u5" 0 with challenges := [("c", 0)] }
     let heap : List Challenge :=
      [{ id := "c", name := "n", description := "d", difficulty := 1,
         skills := [Skill.nlp], points := 30 }]
     (p.complete_challenge heap "c" 3).2.2 = true ∧
     (p.complete_challenge heap "c" 3).1.total_points = 30 ∧
     (p.complete_challenge heap "c" 3).1.skill_levels.get Skill.nlp = 1) := by
  constructor
  · exact ((C5_complete_challenge_spec (Player.init "w5" "u5" 0)
      [{ id := "c", name := "n", description := "d", difficulty := 1,
         skills := [Skill.nlp], points := 30 }] "nope" 3).1).mpr
      (Or.inl (by decide))
  · have hs := (C5_complete_challenge_spec
      ({ Player.init "w5" "u5" 0 with challenges := [("c", 0)] })
      [{ id := "c", name := "n", description := "d", difficulty := 1,
         skills := [Skill.nlp], points := 30 }] "c" 3).2.2 0
      (by decide) (by decide)
    refine ⟨hs.1, ?_, ?_⟩
    · rw [hs.2.2.2.1]; decide
    · rw [hs.2.2.2.2.2.2 (by decide) Skill.nlp]; decide

/-- C6: `Player.earn_achievement` is idempotent on the achievement id —
re-earning a held id is a complete no-op; a fresh id is appended exactly
once, its points are added to `total_points` and funnelled through
`add_experience` (so it can level the player up); earning the same
achievement twice equals earning it once. -/
theorem C6_earn_achievement_idempotent (p : Player) (a : Achievement)
    (now now' : Nat) :
    (p.hasAch a.id = true → p.earn_achievement a now = p) ∧
    (p.hasAch a.id = false →
      (p.earn_achievement a now).achievements = p.achievements ++ [a] ∧
      (p.earn_achievement a now).total_points = p.total_points + a.points ∧
      (p.earn_achievement a now).level =
        (if 100 * p.level ≤ p.experience + a.points then p.level + 1
          else p.level) ∧
      (p.earn_achievement a now).experience =
        (if 100 * p.level ≤ p.experience + a.points then
          p.experience + a.points - 100 * p.level
          else p.experience + a.points)) ∧
    ((p.earn_achievement a now).earn_achievement a now' =
      p.earn_achievement a now) := by
  refine ⟨earn_achievement_of_has p a now, ?_, ?_⟩
  · intro h
    exact ⟨earn_achievement_achievements p a now h,
      earn_achievement_total_points p a now h,
      earn_achievement_level p a now h,
      earn_achievement_exp p a now h⟩
  · exact earn_achievement_of_has _ a now'
      (earn_achievement_hasAch_self p a now)

/-- Witness for C6: a fresh 120-point achievement is appended and levels
the player up; the second grant of the same id is a no-op. -/
theorem C6_witness :
    ((Player.init "w6" "u6" 0).hasAch "gold" = false ∧
      ((Player.init "w6" "u6" 0).earn_achievement
        { id := "gold", name := "g", description := "d", category := "c",
          points := 120 } 1).total_points = 120 ∧
      ((Player.init "w6" "u6" 0).earn_achievement
        { id := "gold", name := "g", description := "d", category := "c",
          points := 120 } 1).level = 2) ∧
    (((Player.init "w6" "u6" 0).earn_achievement
        { id := "gold", name := "g", description := "d", category := "c",
          points := 120 } 1).earn_achievement
        { id := "gold", name := "g", description := "d", category := "c",
          points := 120 } 2) =
      ((Player.init "w6" "u6" 0).earn_achievement
        { id := "gold", name := "g", description := "d", category := "c",
          points := 120 } 1) := by
  have h := C6_earn_achievement_idempotent (Player.init "w6" "u6" 0)
    { id := "gold", name := "g", description := "d", category := "c",
      points := 120 } 1 2
  have hfresh := h.2.1 (by decide)
  refine ⟨⟨by decide, ?_, ?_⟩, h.2.2⟩
  · rw [hfresh.2.1]; decide
  · rw [hfresh.2.2.1]; decide

/-- C9: `GameEngine.register_player` raises a duplicate-identity error
exactly when the id is already registered (leaving the registry unchanged,
as witnessed by `stepT`), and otherwise stores and returns a fresh player
with level 1, experience 0, no points, achievements or challenges. -/
theorem C9_register_player_spec (e : GameEngine) (pid uname : String)
    (now : Nat) :
    ((alookup e.players pid).isSome = true →
      e.register_player pid uname now =
        Except.error ("Player " ++ pid ++ " already exists") ∧
      (e.stepT (Op.register pid uname now)).1 = e) ∧
    (alookup e.players pid = none →
      e.register_player pid uname now =
        Except.ok
          ({ e with players := e.players ++ [(pid, Player.init pid uname now)] },
           Player.init pid uname now) ∧
      alookup (e.players ++ [(pid, Player.init pid uname now)]) pid =
        some (Player.init pid uname now) ∧
      (Player.init pid uname now).level = 1 ∧
      (Player.init pid uname now).experience = 0 ∧
      (Player.init pid uname now).total_points = 0 ∧
      (Player.init pid uname now).achievements = [] ∧
      (Player.init pid uname now).challenges = []) := by
  constructor
  · intro h
    have hreg : e.register_player pid uname now =
        Except.error ("Player " ++ pid ++ " already exists") := by
      simp only [GameEngine.register_player, h, if_true]
    refine ⟨hreg, ?_⟩
    simp only [GameEngine.stepT, hreg]
  · intro h
    have hreg : e.register_player pid uname now =
        Except.ok
          ({ e with players := e.players ++ [(pid, Player.init pid uname now)] },
           Player.init pid uname now) := by
      simp only [GameEngine.register_player, h, Option.isSome_none,
        Bool.false_eq_true, if_false]
    refine ⟨hreg, ?_, rfl, rfl, rfl, rfl, rfl⟩
    rw [alookup_append_single, h, if_pos rfl]

/-- Witness for C9: registering "w9" twice — first call succeeds and stores
the fresh level-1 player, second call errors leaving the registry as it
was. -/
theorem C9_witness :
    (alookup (engineInit.players ++ [("w9", Player.init "w9" "u9" 0)]) "w9" =
      some (Player.init "w9" "u9" 0) ∧
      (Player.init "w9" "u9" 0).level = 1) ∧
    (({ engineInit with
        players := engineInit.players ++ [("w9", Player.init "w9" "u9" 0)] }
          : GameEngine).register_player "w9" "u9" 1 =
      Except.error ("Player " ++ "w9" ++ " already exists")) := by
  have h1 := (C9_register_player_spec engineInit "w9" "u9" 0).2 (by decide)
  have h2 := (C9_register_player_spec
    ({ engineInit with
        players := engineInit.players ++ [("w9", Player.init "w9" "u9" 0)] })
    "w9" "u9" 1).1 (by decide)
  exact ⟨⟨h1.2.1, h1.2.2.1⟩, h2.1⟩

/-- C10: `GameEngine.get_stats` always reports the player count, rule
count and catalog size, and the average player level, which is 0 for an
empty registry (the division is guarded) and otherwise satisfies
average × count = sum of levels. -/
theorem C10_get_stats_spec (e : GameEngine) :
    e.get_stats.total_players = e.players.length ∧
    e.get_stats.total_achievements_rules = e.achievement_rules.length ∧
    e.get_stats.total_challenges = e.challenge_catalog.length ∧
    (e.players = [] → e.get_stats.average_player_level = 0) ∧
    (e.players ≠ [] →
      e.get_stats.average_player_level * (e.players.length : Rat) =
        (((e.players.map (fun kv => kv.2.level)).foldl (· + ·) 0 : Int) : Rat)) := by
  refine ⟨rfl, rfl, rfl, ?_, ?_⟩
  · intro h
    simp [GameEngine.get_stats, h]
  · intro h
    have hne : e.players.length ≠ 0 := by
      simpa [List.length_eq_zero] using h
    have hq : (e.players.length : Rat) ≠ 0 := by
      exact_mod_cast hne
    simp only [GameEngine.get_stats, List.isEmpty_iff, h, if_false]
    rw [div_mul_cancel₀ _ hq]

/-- Witness for C10: the empty engine reports average level 0; an engine
with one level-1 player satisfies average × 1 = 1. -/
theorem C10_witness :
    engineInit.get_stats.average_player_level = 0 ∧
    ({ engineInit with players := [("w10", Player.init "w10" "u" 0)] }
        : GameEngine).get_stats.average_player_level *
      (([("w10", Player.init "w10" "u" 0)] : List (String × Player)).length
        : Rat) = ((1 : Int) : Rat) := by
  constructor
  · exact (C10_get_stats_spec engineInit).2.2.2.1 rfl
  · have h := (C10_get_stats_spec
      ({ engineInit with players := [("w10", Player.init "w10" "u" 0)] })).2.2.2.2
      (by simp)
    simpa using h

/-! ### Leaderboard lemmas -/

theorem pointsDescLe_trans (a b c : Player) (h1 : pointsDescLe a b)
    (h2 : pointsDescLe b c) : pointsDescLe a c = true := by
  simp only [pointsDescLe, decide_eq_true_eq] at h1 h2 ⊢
  omega

theorem pointsDescLe_total (a b : Player) :
    (pointsDescLe a b || pointsDescLe b a) = true := by
  simp only [pointsDescLe, Bool.or_eq_true, decide_eq_true_eq]
  omega

theorem get_leaderboard_length (e : GameEngine) (top_n now : Nat) :
    (e.get_leaderboard top_n now).length = min top_n e.players.length := by
  simp [GameEngine.get_leaderboard, GameEngine.sorted_players]

theorem get_leaderboard_get (e : GameEngine) (top_n now : Nat) (i : Nat)
    (hi : i < (e.get_leaderboard top_n now).length)
    (hi' : i < (e.sorted_players.take top_n).length) :
    (e.get_leaderboard top_n now).get ⟨i, hi⟩ =
      { rank := i + 1,
        summary := ((e.sorted_players.take top_n).get
          ⟨i, hi'⟩).get_progress_summary e.heap now } := by
  simp [GameEngine.get_leaderboard, List.get_eq_getElem, List.getElem_map,
    List.getElem_enum]

theorem sorted_players_pairwise (e : GameEngine) :
    e.sorted_players.Pairwise (fun p q => pointsDescLe p q = true) := by
  exact List.sorted_mergeSort pointsDescLe_trans pointsDescLe_total _

/-- C7: `get_leaderboard` returns at most `top_n` entries, annotated with
1-based ranks equal to their positions, sorted by `total_points`
descending; ties keep the stable original registration order (any
equal-points pair in registration order stays in that order in the sorted
sequence); on the three-player example with points 30, 10, 20 the result
is ranks 1, 2, 3 with points 30, 20, 10. -/
theorem C7_get_leaderboard_spec (e : GameEngine) (top_n now : Nat) :
    ((e.get_leaderboard top_n now).length = min top_n e.players.length) ∧
    (∀ i (hi : i < (e.get_leaderboard top_n now).length),
      ((e.get_leaderboard top_n now).get ⟨i, hi⟩).rank = i + 1) ∧
    (∀ i j (hi : i < (e.get_leaderboard top_n now).length)
        (hj : j < (e.get_leaderboard top_n now).length), i < j →
      ((e.get_leaderboard top_n now).get ⟨j, hj⟩).summary.total_points ≤
        ((e.get_leaderboard top_n now).get ⟨i, hi⟩).summary.total_points) ∧
    (∀ p q : Player, p.total_points = q.total_points →
      List.Sublist [p, q] (e.players.map Prod.snd) →
      List.Sublist [p, q] e.sorted_players) ∧
    ((exampleLBEngine.get_leaderboard 10 0).map
        (fun en => (en.rank, en.summary.total_points)) =
      [(1, 30), (2, 20), (3, 10)]) := by
  have hlen : (e.get_leaderboard top_n now).length =
      (e.sorted_players.take top_n).length := by
    simp [GameEngine.get_leaderboard]
  refine ⟨get_leaderboard_length e top_n now, ?_, ?_, ?_, ?_⟩
  · intro i hi
    rw [get_leaderboard_get e top_n now i hi (hlen ▸ hi)]
  · intro i j hi hj hij
    rw [get_leaderboard_get e top_n now i hi (hlen ▸ hi),
      get_leaderboard_get e top_n now j hj (hlen ▸ hj)]
    have hpair : (e.sorted_players.take top_n).Pairwise
        (fun p q => pointsDescLe p q = true) :=
      (sorted_players_pairwise e).sublist (List.take_sublist _ _)
    have := (List.pairwise_iff_getElem.mp hpair) i j (hlen ▸ hi) (hlen ▸ hj) hij
    simpa [Player.get_progress_summary, pointsDescLe, List.get_eq_getElem]
      using this
  · intro p q hpq hsub
    exact List.sublist_mergeSort pointsDescLe_trans pointsDescLe_total
      (by simp [pointsDescLe, hpq]) hsub
  · simp [GameEngine.get_leaderboard, GameEngine.sorted_players,
      exampleLBEngine, List.mergeSort, pointsDescLe, Player.get_progress_summary,
      Player.init, List.enum, List.enumFrom, Player.challenge_objs]

/-- Witness for C7: on the three-player 30/10/20 example the first entry
has rank 1, and the stability clause applies to two equal-points players
registered in order. -/
theorem C7_witness :
    (∀ i (hi : i < (exampleLBEngine.get_leaderboard 10 0).length),
      ((exampleLBEngine.get_leaderboard 10 0).get ⟨i, hi⟩).rank = i + 1) ∧
    ((exampleLBEngine.get_leaderboard 10 0).map
        (fun en => (en.rank, en.summary.total_points)) =
      [(1, 30), (2, 20), (3, 10)]) := by
  exact ⟨(C7_get_leaderboard_spec exampleLBEngine 10 0).2.1,
    (C7_get_leaderboard_spec exampleLBEngine 10 0).2.2.2.2⟩

/-! ### Event-trace lemmas -/

theorem check_achievements_events (e : GameEngine) (pid : String) (now : Nat) :
    (e.check_achievements pid now).2 =
      (checkRules e.achievement_rules
        ((alookup e.players pid).getD (Player.init "" "" 0)) now).2.map
          (fun a => Event.achievement_earned pid a) ∨
    (e.check_achievements pid now).2 = [] := by
  simp only [GameEngine.check_achievements]
  match h : alookup e.players pid with
  | none => exact Or.inr rfl
  | some p => exact Or.inl (by simp [h])

theorem check_achievements_no_level_up (e : GameEngine) (pid : String)
    (now : Nat) :
    (e.check_achievements pid now).2.filter isLevelUpEv = [] := by
  rcases check_achievements_events e pid now with h | h <;> rw [h]
  · rw [List.filter_map]
    simp [Function.comp_def, isLevelUpEv]
  · rfl

/-- C8: the `level_up` event fires only from `award_experience`, and there
exactly when its own `add_experience` call reports a level-up;
`complete_player_challenge` (and the achievement-earning path inside any
rule pass) never fires `level_up`, even when the experience they funnel
does level the player — as the concrete 150-point-challenge run shows
(player ends at level 2, trace has no `level_up`). -/
theorem C8_level_up_only_award :
    (∀ (e : GameEngine) (pid cid : String) (now : Nat),
      countLevelUp (e.complete_player_challenge pid cid now).2.1 = 0) ∧
    (∀ (e : GameEngine) (pid : String) (amount : Int) (now : Nat),
      (e.award_experience pid amount now).2.1.filter isLevelUpEv =
        (if (e.award_experience pid amount now).2.2 then [Event.level_up pid]
          else [])) ∧
    ((alookup (engineInit.run opsC8).1.players "p1").map Player.level =
        some 2 ∧
      countLevelUp (engineInit.run opsC8).2 = 0) := by
  refine ⟨?_, ?_, by decide, by decide⟩
  · intro e pid cid now
    match h : alookup e.players pid with
    | none => simp [GameEngine.complete_player_challenge, h, countLevelUp]
    | some p =>
      simp only [GameEngine.complete_player_challenge, h]
      split
      · simp only [countLevelUp, List.filter_cons]
        have hev : isLevelUpEv (Event.challenge_completed pid cid) = false := rfl
        rw [hev]
        simp only [Bool.false_eq_true, if_false]
        rw [check_achievements_no_level_up]
        rfl
      · rfl
  · intro e pid amount now
    match h : alookup e.players pid with
    | none => simp [GameEngine.award_experience, h]
    | some p =>
      simp only [GameEngine.award_experience, h, List.filter_append]
      rw [check_achievements_no_level_up]
      split <;> simp [isLevelUpEv]

/-! ### Engine frame lemmas and the shared-challenge scenario -/

theorem start_challenge_fresh_eq (p : Player) (heap : List Challenge)
    (oid : Nat) (h : alookup p.challenges (heapGet heap oid).id = none) :
    p.start_challenge heap oid =
      { p with challenges := p.challenges ++ [((heapGet heap oid).id, oid)] } := by
  simp [Player.start_challenge, h]

theorem check_achievements_frame (e : GameEngine) (pid : String) (now : Nat) :
    (e.check_achievements pid now).1.heap = e.heap ∧
    (e.check_achievements pid now).1.challenge_catalog = e.challenge_catalog ∧
    (e.check_achievements pid now).1.achievement_rules = e.achievement_rules := by
  simp only [GameEngine.check_achievements]
  match h : alookup e.players pid with
  | none => exact ⟨rfl, rfl, rfl⟩
  | some p => exact ⟨rfl, rfl, rfl⟩

theorem check_achievements_players_ne (e : GameEngine) (pid : String)
    (now : Nat) (pid' : String) (h : pid ≠ pid') :
    alookup (e.check_achievements pid now).1.players pid' =
      alookup e.players pid' := by
  simp only [GameEngine.check_achievements]
  match hl : alookup e.players pid with
  | none => rfl
  | some p =>
    simp only []
    exact alookup_aupdate_ne _ _ _ _ h

/-- C2 (amended): a catalog challenge is assigned by object reference, so
two players assigned the same challenge id hold the *same* shared object
(the catalog entry).  When the first player completes it, the shared
object — hence the catalog entry and the second player's held instance —
becomes completed, and completing the same id for the second player
afterwards returns false, fires no events, and leaves all state (in
particular the second player's points) unchanged. -/
theorem C2_shared_challenge_amended (e : GameEngine) (c : Challenge)
    (pid1 pid2 : String) (P1 P2 : Player) (t1 t2 : Nat)
    (hne : pid1 ≠ pid2)
    (h1 : alookup e.players pid1 = some P1)
    (h2 : alookup e.players pid2 = some P2)
    (hcf : c.completed = false)
    (hn1 : alookup P1.challenges c.id = none)
    (hn2 : alookup P2.challenges c.id = none) :
    (c2State e c pid1 pid2 t1).2.2 = true ∧
    alookup (c2State e c pid1 pid2 t1).1.challenge_catalog c.id =
      some e.heap.length ∧
    (heapGet (c2State e c pid1 pid2 t1).1.heap e.heap.length).completed =
      true ∧
    alookup (c2State e c pid1 pid2 t1).1.players pid2 =
      some { P2 with challenges := P2.challenges ++ [(c.id, e.heap.length)] } ∧
    ((c2State e c pid1 pid2 t1).1.complete_player_challenge pid2 c.id
      t2).2.2 = false ∧
    ((c2State e c pid1 pid2 t1).1.complete_player_challenge pid2 c.id
      t2).1 = (c2State e c pid1 pid2 t1).1 ∧
    ((c2State e c pid1 pid2 t1).1.complete_player_challenge pid2 c.id
      t2).2.1 = [] := by
  have hgetc : heapGet (e.heap ++ [c]) e.heap.length = c :=
    heapGet_append_length e.heap c
  have hP1s : P1.start_challenge (e.heap ++ [c]) e.heap.length =
      { P1 with challenges := P1.challenges ++ [(c.id, e.heap.length)] } := by
    have h := start_challenge_fresh_eq P1 (e.heap ++ [c]) e.heap.length
      (by rw [hgetc]; exact hn1)
    rw [hgetc] at h
    exact h
  have hP2s : P2.start_challenge (e.heap ++ [c]) e.heap.length =
      { P2 with challenges := P2.challenges ++ [(c.id, e.heap.length)] } := by
    have h := start_challenge_fresh_eq P2 (e.heap ++ [c]) e.heap.length
      (by rw [hgetc]; exact hn2)
    rw [hgetc] at h
    exact h
  have he2 : ((e.add_challenge c).assign_challenge pid1 c.id).1 =
      { e with heap := e.heap ++ [c],
               challenge_catalog := aupdate e.challenge_catalog c.id
                 e.heap.length,
               players := aupdate e.players pid1
                 { P1 with challenges :=
                    P1.challenges ++ [(c.id, e.heap.length)] } } := by
    simp only [GameEngine.assign_challenge, GameEngine.add_challenge, h1,
      alookup_aupdate_self, hP1s]
  have he3 : ((((e.add_challenge c).assign_challenge pid1
        c.id).1).assign_challenge pid2 c.id).1 =
      { e with heap := e.heap ++ [c],
               challenge_catalog := aupdate e.challenge_catalog c.id
                 e.heap.length,
               players := aupdate
                 (aupdate e.players pid1
                   { P1 with challenges :=
                      P1.challenges ++ [(c.id, e.heap.length)] }) pid2
                 { P2 with challenges :=
                    P2.challenges ++ [(c.id, e.heap.length)] } } := by
    rw [he2]
    simp only [GameEngine.assign_challenge, alookup_aupdate_self,
      alookup_aupdate_ne _ _ _ _ hne, h2, hP2s]
  -- the completion for the first player
  have hlk1 : alookup
      (aupdate (aupdate e.players pid1
        { P1 with challenges := P1.challenges ++ [(c.id, e.heap.length)] })
        pid2
        { P2 with challenges := P2.challenges ++ [(c.id, e.heap.length)] })
      pid1 = some
        { P1 with challenges := P1.challenges ++ [(c.id, e.heap.length)] } := by
    rw [alookup_aupdate_ne _ _ _ _ (Ne.symm hne), alookup_aupdate_self]
  have hch1 : alookup (P1.challenges ++ [(c.id, e.heap.length)]) c.id =
      some e.heap.length := by
    rw [alookup_append_single, hn1, if_pos rfl]
  have hcc := complete_challenge_success
    { P1 with challenges := P1.challenges ++ [(c.id, e.heap.length)] }
    (e.heap ++ [c]) c.id t1 e.heap.length hch1 (by rw [hgetc]; exact hcf)
  have hR : c2State e c pid1 pid2 t1 =
      ((({ e with
          heap := heapSet (e.heap ++ [c]) e.heap.length
            { heapGet (e.heap ++ [c]) e.heap.length with
                completed := true, completed_at := some t1 },
          challenge_catalog := aupdate e.challenge_catalog c.id e.heap.length,
          players := aupdate
            (aupdate
              (aupdate e.players pid1
                { P1 with challenges :=
                    P1.challenges ++ [(c.id, e.heap.length)] }) pid2
              { P2 with challenges :=
                  P2.challenges ++ [(c.id, e.heap.length)] }) pid1
            (({ P1 with challenges :=
                P1.challenges ++ [(c.id, e.heap.length)] }).complete_challenge
              (e.heap ++ [c]) c.id t1).1 } : GameEngine).check_achievements
        pid1 t1).1,
       Event.challenge_completed pid1 c.id ::
        (({ e with
          heap := heapSet (e.heap ++ [c]) e.heap.length
            { heapGet (e.heap ++ [c]) e.heap.length with
                completed := true, completed_at := some t1 },
          challenge_catalog := aupdate e.challenge_catalog c.id e.heap.length,
          players := aupdate
            (aupdate
              (aupdate e.players pid1
                { P1 with challenges :=
                    P1.challenges ++ [(c.id, e.heap.length)] }) pid2
              { P2 with challenges :=
                  P2.challenges ++ [(c.id, e.heap.length)] }) pid1
            (({ P1 with challenges :=
                P1.challenges ++ [(c.id, e.heap.length)] }).complete_challenge
              (e.heap ++ [c]) c.id t1).1 } : GameEngine).check_achievements
        pid1 t1).2, true) := by
    simp only [c2State]
    rw [he3]
    simp only [GameEngine.complete_player_challenge, hlk1, hcc.1, if_true,
      hcc.2.1]
  have hframe := check_achievements_frame
    ({ e with
        heap := heapSet (e.heap ++ [c]) e.heap.length
          { heapGet (e.heap ++ [c]) e.heap.length with
              completed := true, completed_at := some t1 },
        challenge_catalog := aupdate e.challenge_catalog c.id e.heap.length,
        players := aupdate
          (aupdate
            (aupdate e.players pid1
              { P1 with challenges :=
                  P1.challenges ++ [(c.id, e.heap.length)] }) pid2
            { P2 with challenges :=
                P2.challenges ++ [(c.id, e.heap.length)] }) pid1
          (({ P1 with challenges :=
              P1.challenges ++ [(c.id, e.heap.length)] }).complete_challenge
            (e.heap ++ [c]) c.id t1).1 } : GameEngine) pid1 t1
  have hlk2 : alookup (c2State e c pid1 pid2 t1).1.players pid2 =
      some { P2 with challenges :=
        P2.challenges ++ [(c.id, e.heap.length)] } := by
    rw [hR]
    rw [check_achievements_players_ne _ _ _ _ hne]
    show alookup (aupdate (aupdate (aupdate e.players pid1 _) pid2 _) pid1 _)
      pid2 = _
    rw [alookup_aupdate_ne _ _ _ _ hne, alookup_aupdate_self]
  have hheapR : (c2State e c pid1 pid2 t1).1.heap =
      heapSet (e.heap ++ [c]) e.heap.length
        { heapGet (e.heap ++ [c]) e.heap.length with
            completed := true, completed_at := some t1 } := by
    rw [hR]
    exact hframe.1
  have hlt : e.heap.length < (e.heap ++ [c]).length := by
    simp
  have hgetR : heapGet (c2State e c pid1 pid2 t1).1.heap e.heap.length =
      { heapGet (e.heap ++ [c]) e.heap.length with
          completed := true, completed_at := some t1 } := by
    rw [hheapR]
    exact heapGet_heapSet_self _ _ _ hlt
  have hch2 : alookup (P2.challenges ++ [(c.id, e.heap.length)]) c.id =
      some e.heap.length := by
    rw [alookup_append_single, hn2, if_pos rfl]
  have hcc2 := complete_challenge_already
    { P2 with challenges := P2.challenges ++ [(c.id, e.heap.length)] }
    (c2State e c pid1 pid2 t1).1.heap c.id t2 e.heap.length hch2
    (by rw [hgetR])
  have hS : (c2State e c pid1 pid2 t1).1.complete_player_challenge pid2 c.id
      t2 = ((c2State e c pid1 pid2 t1).1, [], false) := by
    simp only [GameEngine.complete_player_challenge, hlk2, hcc2,
      Bool.false_eq_true, if_false]
  refine ⟨by rw [hR], ?_, by rw [hgetR], hlk2, by rw [hS], by rw [hS],
    by rw [hS]⟩
  · rw [hR]
    simp only [hframe.2.1]
    exact alookup_aupdate_self _ _ _

/-- Counterexample to C2 as stated: after two players are assigned the
same 40-point catalog challenge and the first completes it, the shared
catalog entry *is* completed, and completing the same id for the second
player returns false (the claim says true) awarding no points. -/
theorem C2_counterexample :
    ((engineInit.run opsC2).1.complete_player_challenge "p2" "c1" 2).2.2 =
      false ∧
    (alookup ((engineInit.run opsC2).1.complete_player_challenge "p2" "c1"
        2).1.players "p2").map Player.total_points = some 0 ∧
    alookup (engineInit.run opsC2).1.challenge_catalog "c1" = some 0 ∧
    (alookup (engineInit.run opsC2).1.players "p2").map
      (fun p => alookup p.challenges "c1") = some (some 0) ∧
    (heapGet (engineInit.run opsC2).1.heap 0).completed = true := by
  refine ⟨by decide, by decide, by decide, by decide, by decide⟩

/-- Witness for C2 (amended): instantiated with two concrete fresh players
and the concrete 40-point challenge. -/
theorem C2_witness :
    (c2State
        ({ engineInit with players :=
            [("p1", Player.init "p1" "a" 0), ("p2", Player.init "p2" "b" 0)] })
        exampleChallengeC2 "p1" "p2" 1).2.2 = true ∧
    ((c2State
        ({ engineInit with players :=
            [("p1", Player.init "p1" "a" 0), ("p2", Player.init "p2" "b" 0)] })
        exampleChallengeC2 "p1" "p2" 1).1.complete_player_challenge "p2"
        "c1" 2).2.2 = false := by
  have h := C2_shared_challenge_amended
    ({ engineInit with players :=
        [("p1", Player.init "p1" "a" 0), ("p2", Player.init "p2" "b" 0)] })
    exampleChallengeC2 "p1" "p2" (Player.init "p1" "a" 0)
    (Player.init "p2" "b" 0) 1 2 (by decide) (by decide) (by decide)
    (by decide) (by decide) (by decide)
  exact ⟨h.1, h.2.2.2.2.1⟩

/-! ### Counting `achievement_earned` events along a run -/

theorem countEarned_nil (pid aid : String) : countEarned pid aid [] = 0 := rfl

theorem countEarned_append (pid aid : String) (l1 l2 : List Event) :
    countEarned pid aid (l1 ++ l2) =
      countEarned pid aid l1 + countEarned pid aid l2 := by
  simp [countEarned, List.filter_append]

theorem countEarned_map_earned (pid aid : String) (l : List Achievement) :
    countEarned pid aid (l.map (fun a => Event.achievement_earned pid a)) =
      countAid aid l := by
  induction l with
  | nil => rfl
  | cons a t ih =>
    simp only [List.map_cons]
    by_cases h : a.id = aid
    · simp [countEarned, countAid, List.filter_cons, isEarnedEv, h] at ih ⊢
      omega
    · simp [countEarned, countAid, List.filter_cons, isEarnedEv, h] at ih ⊢
      exact ih

theorem countEarned_not_earned_cons (pid aid : String) (ev : Event)
    (l : List Event) (h : isEarnedEv pid aid ev = false) :
    countEarned pid aid (ev :: l) = countEarned pid aid l := by
  simp [countEarned, List.filter_cons, h]

theorem hasAch_congr (p q : Player) (aid : String)
    (h : p.achievements = q.achievements) : p.hasAch aid = q.hasAch aid := by
  simp [Player.hasAch, h]

theorem hasAchievement_some (e : GameEngine) (pid aid : String) (p : Player)
    (h : alookup e.players pid = some p) :
    e.hasAchievement pid aid = p.hasAch aid := by
  simp [GameEngine.hasAchievement, h]

theorem hasAchievement_none (e : GameEngine) (pid aid : String)
    (h : alookup e.players pid = none) :
    e.hasAchievement pid aid = false := by
  simp [GameEngine.hasAchievement, h]

theorem check_achievements_players_self (e : GameEngine) (pid : String)
    (now : Nat) (p : Player) (h : alookup e.players pid = some p) :
    alookup (e.check_achievements pid now).1.players pid =
      some (checkRules e.achievement_rules p now).1 := by
  simp only [GameEngine.check_achievements, h]
  exact alookup_aupdate_self _ _ _

/-- No `achievement_earned` trigger for `pid` arises from a pass run for a
different player. -/
theorem countEarned_map_other (pid pidq aid : String) (h : pidq ≠ pid)
    (l : List Achievement) :
    countEarned pid aid (l.map (fun a => Event.achievement_earned pidq a)) =
      0 := by
  induction l with
  | nil => rfl
  | cons a t ih =>
    rw [List.map_cons, countEarned_not_earned_cons _ _ _ _
      (by simp [isEarnedEv, h])]
    exact ih

/-- The change of the `achievement_earned (pid, aid)` count over one rule
pass equals the 0/1 change of "player `pid` holds `aid`". -/
theorem check_achievements_earned (e1 : GameEngine) (pidq : String)
    (now : Nat) (p : Player) (pid aid : String)
    (hp : alookup e1.players pidq = some p) :
    countEarned pid aid (e1.check_achievements pidq now).2 +
      (if e1.hasAchievement pid aid = true then 1 else 0) =
      (if (e1.check_achievements pidq now).1.hasAchievement pid aid = true
        then 1 else 0) := by
  by_cases hpid : pidq = pid
  · subst hpid
    have hev : (e1.check_achievements pidq now).2 =
        (checkRules e1.achievement_rules p now).2.map
          (fun a => Event.achievement_earned pidq a) := by
      simp [GameEngine.check_achievements, hp]
    rw [hev, countEarned_map_earned, checkRules_count,
      hasAchievement_some e1 pidq aid p hp,
      hasAchievement_some _ pidq aid _
        (check_achievements_players_self e1 pidq now p hp)]
    by_cases hbefore : p.hasAch aid
    · rw [if_pos hbefore]
      have hafter := checkRules_hasAch_mono e1.achievement_rules p now aid
        hbefore
      simp [hbefore, hafter]
    · have hb : p.hasAch aid = false := by simp_all
      rw [if_neg (by simp [hb])]
      by_cases hafter : (checkRules e1.achievement_rules p now).1.hasAch aid
        <;> simp [hb, hafter]
  · have hev : countEarned pid aid (e1.check_achievements pidq now).2 = 0 := by
      rcases check_achievements_events e1 pidq now with h | h <;> rw [h]
      · exact countEarned_map_other pid pidq aid hpid _
      · rfl
    have hsame : (e1.check_achievements pidq now).1.hasAchievement pid aid =
        e1.hasAchievement pid aid := by
      unfold GameEngine.hasAchievement
      rw [check_achievements_players_ne e1 pidq now pid hpid]
    rw [hev, hsame]
    omega

/-- The count of `achievement_earned (pid, aid)` triggers fired by one
engine call equals the 0/1 change of "player `pid` holds `aid`". -/
theorem stepT_earned (e : GameEngine) (op : Op) (pid aid : String) :
    countEarned pid aid (e.stepT op).2 +
      (if e.hasAchievement pid aid = true then 1 else 0) =
      (if (e.stepT op).1.hasAchievement pid aid = true then 1 else 0) := by
  cases op with
  | register pid0 uname now =>
    simp only [GameEngine.stepT, GameEngine.register_player]
    by_cases hdup : (alookup e.players pid0).isSome
    · simp [hdup, countEarned_nil]
    · simp only [hdup, Bool.false_eq_true, if_false]
      have hafter : ({ e with players :=
            e.players ++ [(pid0, Player.init pid0 uname now)] }
            : GameEngine).hasAchievement pid aid =
          e.hasAchievement pid aid := by
        unfold GameEngine.hasAchievement
        show (match alookup (e.players ++ [(pid0, Player.init pid0 uname now)])
            pid with
          | some p => p.hasAch aid
          | none => false) = _
        rw [alookup_append_single]
        match hl : alookup e.players pid with
        | some q => rfl
        | none =>
          by_cases hp0 : pid0 = pid
          · simp [hp0, Player.hasAch, Player.init]
          · simp [hp0]
      simp [countEarned_nil, hafter]
  | addRule r =>
    have hafter : (e.add_achievement_rule r).hasAchievement pid aid =
        e.hasAchievement pid aid := rfl
    simp [GameEngine.stepT, countEarned_nil, hafter]
  | addChallenge c =>
    have hafter : (e.add_challenge c).hasAchievement pid aid =
        e.hasAchievement pid aid := rfl
    simp [GameEngine.stepT, countEarned_nil, hafter]
  | assign pid0 cid =>
    have hafter : (e.assign_challenge pid0 cid).1.hasAchievement pid aid =
        e.hasAchievement pid aid := by
      unfold GameEngine.assign_challenge
      match h1 : alookup e.players pid0, h2 : alookup e.challenge_catalog cid
        with
      | none, none => rfl
      | none, some oid => rfl
      | some p, none => rfl
      | some p, some oid =>
        simp only [GameEngine.hasAchievement]
        by_cases hpid : pid0 = pid
        · subst hpid
          rw [alookup_aupdate_self, h1]
          show (p.start_challenge e.heap oid).hasAch aid = p.hasAch aid
          exact hasAch_congr _ _ _ ((start_challenge_frame p e.heap oid).2.1)
        · rw [alookup_aupdate_ne _ _ _ _ hpid]
    simp [GameEngine.stepT, countEarned_nil, hafter]
  | complete pid0 cid now =>
    simp only [GameEngine.stepT]
    cases h1 : alookup e.players pid0 with
    | none => simp [GameEngine.complete_player_challenge, h1, countEarned_nil]
    | some p =>
      simp only [GameEngine.complete_player_challenge, h1]
      rcases complete_challenge_cases p e.heap cid now with hs | hs
      · rw [if_pos hs]
        rw [countEarned_not_earned_cons _ _ _ _ (by simp [isEarnedEv])]
        have hach : (p.complete_challenge e.heap cid now).1.achievements =
            p.achievements := by
          match hl : alookup p.challenges cid with
          | none => rw [complete_challenge_none p e.heap cid now hl]
          | some oid =>
            by_cases hcomp : (heapGet e.heap oid).completed
            · rw [complete_challenge_already p e.heap cid now oid hl hcomp]
            · exact (complete_challenge_success p e.heap cid now oid hl
                (by simp_all)).2.2.2.2.2.2.1
        have hmid : alookup
            (completeMidEngine e pid0
              (p.complete_challenge e.heap cid now)).players pid0 =
            some (p.complete_challenge e.heap cid now).1 :=
          alookup_aupdate_self _ _ _
        have h := check_achievements_earned
          (completeMidEngine e pid0 (p.complete_challenge e.heap cid now))
          pid0 now _ pid aid hmid
        have hachsame : (completeMidEngine e pid0
              (p.complete_challenge e.heap cid now)).hasAchievement pid aid =
            e.hasAchievement pid aid := by
          unfold GameEngine.hasAchievement completeMidEngine
          by_cases hpid : pid0 = pid
          · subst hpid
            rw [alookup_aupdate_self, h1]
            show (p.complete_challenge e.heap cid now).1.hasAch aid =
              p.hasAch aid
            exact hasAch_congr _ _ _ hach
          · rw [alookup_aupdate_ne _ _ _ _ hpid]
        rw [hachsame] at h
        exact h
      · rw [hs]
        simp only [Bool.false_eq_true, if_false, countEarned_nil,
          Nat.zero_add]
  | award pid0 amount now =>
    simp only [GameEngine.stepT]
    cases h1 : alookup e.players pid0 with
    | none => simp [GameEngine.award_experience, h1, countEarned_nil]
    | some p =>
      simp only [GameEngine.award_experience, h1]
      rw [countEarned_append]
      have hlev : countEarned pid aid
          (if (p.add_experience amount now).2 = true
            then [Event.level_up pid0] else []) = 0 := by
        split
        · exact countEarned_not_earned_cons _ _ _ _ (by simp [isEarnedEv])
        · rfl
      rw [hlev, Nat.zero_add]
      have hmid : alookup
          (awardMidEngine e pid0 (p.add_experience amount now).1).players
            pid0 = some (p.add_experience amount now).1 :=
        alookup_aupdate_self _ _ _
      have h := check_achievements_earned
        (awardMidEngine e pid0 (p.add_experience amount now).1) pid0 now _
        pid aid hmid
      have hachsame : (awardMidEngine e pid0
            (p.add_experience amount now).1).hasAchievement pid aid =
          e.hasAchievement pid aid := by
        unfold GameEngine.hasAchievement awardMidEngine
        by_cases hpid : pid0 = pid
        · subst hpid
          rw [alookup_aupdate_self, h1]
          show (p.add_experience amount now).1.hasAch aid = p.hasAch aid
          exact hasAch_congr _ _ _ ((add_experience_frame p amount now).2.1)
        · rw [alookup_aupdate_ne _ _ _ _ hpid]
      rw [hachsame] at h
      exact h


/-- Along a run, the number of `achievement_earned (pid, aid)` triggers
equals the 0/1 change of "player `pid` holds `aid`". -/
theorem run_earned (l : List Op) (e : GameEngine) (pid aid : String) :
    countEarned pid aid (e.run l).2 +
      (if e.hasAchievement pid aid = true then 1 else 0) =
      (if (e.run l).1.hasAchievement pid aid = true then 1 else 0) := by
  induction l generalizing e with
  | nil => simp [GameEngine.run, countEarned_nil]
  | cons op rest ih =>
    simp only [GameEngine.run]
    rw [countEarned_append]
    have h1 := stepT_earned e op pid aid
    have h2 := ih (e.stepT op).1
    omega

/-- C4: rule passes walk the rules in registration order (the emitted
achievements form a sublist of the rules' achievements in that order), a
rule whose achievement the player already holds is skipped, every emitted
achievement is actually granted to the player, and — across any run of
engine operations from a fresh engine — the `achievement_earned` trigger
for a given player and achievement id fires exactly once if the player
ends up holding it and never otherwise (so at most once per pair). -/
theorem C4_achievement_rules_spec :
    (∀ (rules : List AchievementRule) (p : Player) (now : Nat),
      List.Sublist (checkRules rules p now).2
        (rules.map (fun r => r.achievement))) ∧
    (∀ (rules : List AchievementRule) (p : Player) (now : Nat)
        (aid : String), p.hasAch aid = true →
      ∀ a ∈ (checkRules rules p now).2, a.id ≠ aid) ∧
    (∀ (rules : List AchievementRule) (p : Player) (now : Nat),
      ∀ a ∈ (checkRules rules p now).2,
        (checkRules rules p now).1.hasAch a.id = true) ∧
    (∀ (ops : List Op) (pid aid : String),
      countEarned pid aid (engineInit.run ops).2 =
        (if (engineInit.run ops).1.hasAchievement pid aid = true then 1
          else 0)) := by
  refine ⟨checkRules_sublist, checkRules_skip, checkRules_granted, ?_⟩
  intro ops pid aid
  have h := run_earned ops engineInit pid aid
  have hinit : engineInit.hasAchievement pid aid = false := rfl
  rw [hinit] at h
  simpa using h

/-- Witness for C4: a held achievement is never re-emitted by a pass, and
on the concrete run (level-2 rule, register, award 150 then 10) the
`achievement_earned` trigger for ("p1", "lvl2") fires exactly once. -/
theorem C4_witness :
    (({ Player.init "w4" "u" 0 with achievements :=
        [{ id := "lvl2", name := "Level 2", description := "d",
           category := "level", points := 5 }] } : Player).hasAch "lvl2" =
      true ∧
      ∀ a ∈ (checkRules [exampleRuleC4]
          ({ Player.init "w4" "u" 0 with achievements :=
            [{ id := "lvl2", name := "Level 2", description := "d",
               category := "level", points := 5 }] }) 3).2, a.id ≠ "lvl2") ∧
    countEarned "p1" "lvl2" (engineInit.run opsC4).2 = 1 ∧
    (engineInit.run opsC4).1.hasAchievement "p1" "lvl2" = true := by
  refine ⟨⟨by decide, C4_achievement_rules_spec.2.1 [exampleRuleC4] _ 3 "lvl2"
    (by decide)⟩, ?_, by decide⟩
  have h := C4_achievement_rules_spec.2.2.2 opsC4 "p1" "lvl2"
  rw [h]
  simp only [show (engineInit.run opsC4).1.hasAchievement "p1" "lvl2" = true
    from by decide, if_true]

/-! ### Engine invariants along a run -/

theorem heapGet_points_nonneg (heap : List Challenge) (oid : Nat)
    (h : ∀ c ∈ heap, 0 ≤ c.points) : 0 ≤ (heapGet heap oid).points := by
  unfold heapGet
  match hg : heap.get? oid with
  | none => simp
  | some c =>
    simp only [Option.getD_some]
    exact h c (List.get?_mem hg)

theorem players_inv_aupdate (l : List (String × Player)) (k : String)
    (v : Player) (hl : ∀ kv ∈ l, PlayerInvOk kv.2) (hv : PlayerInvOk v) :
    ∀ kv ∈ aupdate l k v, PlayerInvOk kv.2 := by
  intro kv hkv
  rcases mem_aupdate l k v kv hkv with h | h
  · rw [h]
    exact hv
  · exact hl kv h

theorem check_achievements_players_eq (e : GameEngine) (pid : String)
    (now : Nat) (p : Player) (h : alookup e.players pid = some p) :
    (e.check_achievements pid now).1.players =
      aupdate e.players pid (checkRules e.achievement_rules p now).1 := by
  simp [GameEngine.check_achievements, h]

/-- One valid engine call preserves the engine invariant, and every
registered player's `total_points` does not decrease (players are never
removed). -/
theorem stepT_inv (e : GameEngine) (op : Op) (hInv : EngineInvOk e)
    (hop : validOp op = true) :
    EngineInvOk (e.stepT op).1 ∧
    (∀ pid p, alookup e.players pid = some p →
      ∃ q, alookup (e.stepT op).1.players pid = some q ∧
        p.total_points ≤ q.total_points) := by
  obtain ⟨hPl, hHp, hRl⟩ := hInv
  cases op with
  | register pid0 uname now =>
    simp only [GameEngine.stepT, GameEngine.register_player]
    by_cases hdup : (alookup e.players pid0).isSome
    · simp only [hdup, if_true]
      exact ⟨⟨hPl, hHp, hRl⟩, fun pid p hp => ⟨p, hp, le_refl _⟩⟩
    · simp only [hdup, Bool.false_eq_true, if_false]
      refine ⟨⟨?_, hHp, hRl⟩, ?_⟩
      · intro kv hkv
        rcases List.mem_append.mp hkv with h | h
        · exact hPl kv h
        · simp only [List.mem_singleton] at h
          rw [h]
          exact ⟨by simp [Player.init], by simp [Player.init],
            by simp [Player.init]⟩
      · intro pid p hp
        refine ⟨p, ?_, le_refl _⟩
        rw [alookup_append_single, hp]
  | addRule r =>
    simp only [GameEngine.stepT, GameEngine.add_achievement_rule]
    refine ⟨⟨hPl, hHp, ?_⟩, fun pid p hp => ⟨p, hp, le_refl _⟩⟩
    intro r0 hr0
    rcases List.mem_append.mp hr0 with h | h
    · exact hRl r0 h
    · simp only [List.mem_singleton] at h
      rw [h]
      simpa [validOp] using hop
  | addChallenge c =>
    simp only [GameEngine.stepT, GameEngine.add_challenge]
    refine ⟨⟨hPl, ?_, hRl⟩, fun pid p hp => ⟨p, hp, le_refl _⟩⟩
    intro c0 hc0
    rcases List.mem_append.mp hc0 with h | h
    · exact hHp c0 h
    · simp only [List.mem_singleton] at h
      rw [h]
      simpa [validOp] using hop
  | assign pid0 cid =>
    simp only [GameEngine.stepT, GameEngine.assign_challenge]
    match h1 : alookup e.players pid0, h2 : alookup e.challenge_catalog cid
      with
    | none, none => exact ⟨⟨hPl, hHp, hRl⟩, fun pid p hp => ⟨p, hp, le_refl _⟩⟩
    | none, some oid =>
      exact ⟨⟨hPl, hHp, hRl⟩, fun pid p hp => ⟨p, hp, le_refl _⟩⟩
    | some p0, none =>
      exact ⟨⟨hPl, hHp, hRl⟩, fun pid p hp => ⟨p, hp, le_refl _⟩⟩
    | some p0, some oid =>
      have hfr := start_challenge_frame p0 e.heap oid
      have hp0inv : PlayerInvOk (p0.start_challenge e.heap oid) := by
        have h := hPl (pid0, p0) (alookup_mem _ _ _ h1)
        exact ⟨by rw [hfr.2.2.1]; exact h.1, by rw [hfr.2.2.2.1]; exact h.2.1,
          by rw [hfr.1]; exact h.2.2⟩
      refine ⟨⟨players_inv_aupdate _ _ _ hPl hp0inv, hHp, hRl⟩, ?_⟩
      intro pid p hp
      by_cases hpid : pid0 = pid
      · subst hpid
        refine ⟨p0.start_challenge e.heap oid, alookup_aupdate_self _ _ _, ?_⟩
        rw [hfr.1]
        rw [h1] at hp
        cases hp
        exact le_refl _
      · exact ⟨p, by rw [alookup_aupdate_ne _ _ _ _ hpid]; exact hp,
          le_refl _⟩
  | complete pid0 cid now =>
    cases h1 : alookup e.players pid0 with
    | none =>
      have hstep1 : (e.stepT (Op.complete pid0 cid now)).1 = e := by
        simp [GameEngine.stepT, GameEngine.complete_player_challenge, h1]
      rw [hstep1]
      exact ⟨⟨hPl, hHp, hRl⟩, fun pid p hp => ⟨p, hp, le_refl _⟩⟩
    | some p0 =>
      match hl : alookup p0.challenges cid with
      | none =>
        have hstep1 : (e.stepT (Op.complete pid0 cid now)).1 = e := by
          simp [GameEngine.stepT, GameEngine.complete_player_challenge, h1,
            complete_challenge_none p0 e.heap cid now hl]
        rw [hstep1]
        exact ⟨⟨hPl, hHp, hRl⟩, fun pid p hp => ⟨p, hp, le_refl _⟩⟩
      | some oid =>
        by_cases hcomp : (heapGet e.heap oid).completed
        · have hstep1 : (e.stepT (Op.complete pid0 cid now)).1 = e := by
            simp [GameEngine.stepT, GameEngine.complete_player_challenge, h1,
              complete_challenge_already p0 e.heap cid now oid hl hcomp]
          rw [hstep1]
          exact ⟨⟨hPl, hHp, hRl⟩, fun pid p hp => ⟨p, hp, le_refl _⟩⟩
        · have hcomp' : (heapGet e.heap oid).completed = false := by
            simp_all
          have hcc := complete_challenge_success p0 e.heap cid now oid hl
            hcomp'
          have hstep1 : (e.stepT (Op.complete pid0 cid now)).1 =
              ((completeMidEngine e pid0
                (p0.complete_challenge e.heap cid now)).check_achievements
                  pid0 now).1 := by
            simp only [GameEngine.stepT, GameEngine.complete_player_challenge,
              h1, hcc.1, if_true]
            rfl
          rw [hstep1]
          have hpts : 0 ≤ (heapGet e.heap oid).points :=
            heapGet_points_nonneg e.heap oid hHp
          have hp0 : PlayerInvOk p0 := hPl (pid0, p0) (alookup_mem _ _ _ h1)
          obtain ⟨hp0l, hp0e, hp0t⟩ := hp0
          have hr1inv : PlayerInvOk (p0.complete_challenge e.heap cid
              now).1 := by
            refine ⟨?_, ?_, ?_⟩
            · rw [hcc.2.2.2.1]
              split <;> omega
            · rw [hcc.2.2.2.2.1]
              split <;> omega
            · rw [hcc.2.2.1]
              omega
          have hr1pts : p0.total_points ≤
              (p0.complete_challenge e.heap cid now).1.total_points := by
            rw [hcc.2.2.1]
            omega
          have hheapinv : ∀ c ∈ (p0.complete_challenge e.heap cid now).2.1,
              0 ≤ c.points := by
            rw [hcc.2.1]
            intro c hc
            rcases List.mem_or_eq_of_mem_set hc with h | h
            · exact hHp c h
            · rw [h]
              exact hpts
          have hmid : alookup
              (completeMidEngine e pid0
                (p0.complete_challenge e.heap cid now)).players pid0 =
              some (p0.complete_challenge e.heap cid now).1 :=
            alookup_aupdate_self _ _ _
          have hq := checkRules_inv e.achievement_rules
            (p0.complete_challenge e.heap cid now).1 now hRl hr1inv.1
            hr1inv.2.1 hr1inv.2.2
          have hplayers := check_achievements_players_eq
            (completeMidEngine e pid0 (p0.complete_challenge e.heap cid now))
            pid0 now _ hmid
          have hfr := check_achievements_frame
            (completeMidEngine e pid0 (p0.complete_challenge e.heap cid now))
            pid0 now
          constructor
          · refine ⟨?_, ?_, ?_⟩
            · rw [hplayers]
              exact players_inv_aupdate _ _ _
                (players_inv_aupdate _ _ _ hPl hr1inv) ⟨hq.1, hq.2.1,
                  le_trans hr1inv.2.2 hq.2.2⟩
            · rw [hfr.1]
              exact hheapinv
            · rw [hfr.2.2]
              exact hRl
          · intro pid p hp
            by_cases hpid : pid0 = pid
            · subst hpid
              rw [h1] at hp
              cases hp
              refine ⟨(checkRules e.achievement_rules
                (p0.complete_challenge e.heap cid now).1 now).1, ?_, ?_⟩
              · rw [hplayers]
                exact alookup_aupdate_self _ _ _
              · exact le_trans hr1pts hq.2.2
            · refine ⟨p, ?_, le_refl _⟩
              rw [hplayers, alookup_aupdate_ne _ _ _ _ hpid]
              simp only [completeMidEngine]
              rw [alookup_aupdate_ne _ _ _ _ hpid]
              exact hp
  | award pid0 amount now =>
    cases h1 : alookup e.players pid0 with
    | none =>
      have hstep1 : (e.stepT (Op.award pid0 amount now)).1 = e := by
        simp [GameEngine.stepT, GameEngine.award_experience, h1]
      rw [hstep1]
      exact ⟨⟨hPl, hHp, hRl⟩, fun pid p hp => ⟨p, hp, le_refl _⟩⟩
    | some p0 =>
      have hstep1 : (e.stepT (Op.award pid0 amount now)).1 =
          ((awardMidEngine e pid0
            (p0.add_experience amount now).1).check_achievements pid0
              now).1 := by
        simp only [GameEngine.stepT, GameEngine.award_experience, h1]
        rfl
      rw [hstep1]
      have hamt : (0 : Int) ≤ amount := by simpa [validOp] using hop
      have hp0 : PlayerInvOk p0 := hPl (pid0, p0) (alookup_mem _ _ _ h1)
      obtain ⟨hp0l, hp0e, hp0t⟩ := hp0
      have hfr := add_experience_frame p0 amount now
      have hr1inv : PlayerInvOk (p0.add_experience amount now).1 := by
        have h := add_experience_inv p0 amount now hp0l hp0e hamt
        exact ⟨h.1, h.2, by rw [hfr.1]; exact hp0t⟩
      have hmid : alookup
          (awardMidEngine e pid0 (p0.add_experience amount now).1).players
            pid0 = some (p0.add_experience amount now).1 :=
        alookup_aupdate_self _ _ _
      have hq := checkRules_inv e.achievement_rules
        (p0.add_experience amount now).1 now hRl hr1inv.1 hr1inv.2.1
        hr1inv.2.2
      have hplayers := check_achievements_players_eq
        (awardMidEngine e pid0 (p0.add_experience amount now).1) pid0 now _
        hmid
      have hfre := check_achievements_frame
        (awardMidEngine e pid0 (p0.add_experience amount now).1) pid0 now
      constructor
      · refine ⟨?_, ?_, ?_⟩
        · rw [hplayers]
          exact players_inv_aupdate _ _ _
            (players_inv_aupdate _ _ _ hPl hr1inv) ⟨hq.1, hq.2.1,
              le_trans hr1inv.2.2 hq.2.2⟩
        · rw [hfre.1]
          exact hHp
        · rw [hfre.2.2]
          exact hRl
      · intro pid p hp
        by_cases hpid : pid0 = pid
        · subst hpid
          rw [h1] at hp
          cases hp
          refine ⟨(checkRules e.achievement_rules
            (p0.add_experience amount now).1 now).1, ?_, ?_⟩
          · rw [hplayers]
            exact alookup_aupdate_self _ _ _
          · rw [hfr.1] at hq
            exact hq.2.2
        · refine ⟨p, ?_, le_refl _⟩
          rw [hplayers, alookup_aupdate_ne _ _ _ _ hpid]
          simp only [awardMidEngine]
          rw [alookup_aupdate_ne _ _ _ _ hpid]
          exact hp

/-- A run of valid engine calls preserves the engine invariant and never
decreases any registered player's points. -/
theorem run_inv (l : List Op) (e : GameEngine) (hInv : EngineInvOk e)
    (hops : ∀ op ∈ l, validOp op = true) :
    EngineInvOk (e.run l).1 ∧
    (∀ pid p, alookup e.players pid = some p →
      ∃ q, alookup (e.run l).1.players pid = some q ∧
        p.total_points ≤ q.total_points) := by
  induction l generalizing e with
  | nil => exact ⟨hInv, fun pid p hp => ⟨p, hp, le_refl _⟩⟩
  | cons op rest ih =>
    have hstep := stepT_inv e op hInv (hops op (List.mem_cons_self _ _))
    have hrest := ih (e.stepT op).1 hstep.1
      (fun op' h => hops op' (List.mem_cons_of_mem _ h))
    refine ⟨hrest.1, ?_⟩
    intro pid p hp
    obtain ⟨q, hq, hle⟩ := hstep.2 pid p hp
    obtain ⟨q2, hq2, hle2⟩ := hrest.2 pid q hq
    exact ⟨q2, hq2, le_trans hle hle2⟩

theorem run_append (e : GameEngine) (l1 l2 : List Op) :
    (e.run (l1 ++ l2)).1 = ((e.run l1).1.run l2).1 := by
  induction l1 generalizing e with
  | nil => simp [GameEngine.run]
  | cons op rest ih =>
    simp only [List.cons_append, GameEngine.run]
    exact ih (e.stepT op).1

/-- C3 (amended): along any run of engine operations with non-negative
amounts and point values, every registered player satisfies level ≥ 1,
experience ≥ 0 and total_points ≥ 0, and total_points never decreases
across operations.  (The originally claimed bound
`experience < 100 × level` is refuted by `C3_counterexample`.) -/
theorem C3_progression_invariants_amended (ops : List Op)
    (hops : ∀ op ∈ ops, validOp op = true) :
    (∀ kv ∈ (engineInit.run ops).1.players,
      1 ≤ kv.2.level ∧ 0 ≤ kv.2.experience ∧ 0 ≤ kv.2.total_points) ∧
    (∀ l1 l2, ops = l1 ++ l2 → ∀ pid p,
      alookup (engineInit.run l1).1.players pid = some p →
      ∃ q, alookup (engineInit.run ops).1.players pid = some q ∧
        p.total_points ≤ q.total_points) := by
  have hinit : EngineInvOk engineInit := by
    refine ⟨?_, ?_, ?_⟩ <;> intro x hx <;> simp [engineInit] at hx
  constructor
  · intro kv hkv
    exact (run_inv ops engineInit hinit hops).1.1 kv hkv
  · intro l1 l2 hsplit pid p hp
    subst hsplit
    have hinv1 := run_inv l1 engineInit hinit
      (fun op h => hops op (List.mem_append.mpr (Or.inl h)))
    have h2 := run_inv l2 (engineInit.run l1).1 hinv1.1
      (fun op h => hops op (List.mem_append.mpr (Or.inr h)))
    obtain ⟨q, hq, hle⟩ := h2.2 pid p hp
    exact ⟨q, by rw [run_append]; exact hq, hle⟩

/-- Counterexample to the claimed bound "experience is bounded below the
next-level threshold": registering a player and awarding 350 experience
(a valid non-negative amount) leaves level 2 with experience 250 ≥ 200 =
100 × level. -/
theorem C3_counterexample :
    (∀ op ∈ opsC3, validOp op = true) ∧
    (alookup (engineInit.run opsC3).1.players "p1").map
      (fun p => (p.level, p.experience)) = some (2, 250) ∧
    (alookup (engineInit.run opsC3).1.players "p1").map
      (fun p => decide (p.experience < 100 * p.level)) = some false := by
  exact ⟨by decide, by decide, by decide⟩

/-- Witness for C3 (amended): the concrete 350-experience run is valid and
its resulting players satisfy the invariants. -/
theorem C3_witness :
    (∀ op ∈ opsC3, validOp op = true) ∧
    (∀ kv ∈ (engineInit.run opsC3).1.players,
      1 ≤ kv.2.level ∧ 0 ≤ kv.2.experience ∧ 0 ≤ kv.2.total_points) :=
  ⟨by decide, (C3_progression_invariants_amended opsC3 (by decide)).1⟩


end Jupityr
